import Mathlib

/-!
# Touch-Events: a shallow embedding of `src/src/index.js`

The module keeps two global registries (`listeners`, `pointers`) and drives one
gesture state machine per registered DOM node from the window-level pointer
events.  The embedding below follows the source function by function.

Modelling decisions:

* JavaScript objects that are shared by reference (the pointer records, which
  live both in the global `pointers` object and in `listener.state.pointers`)
  are kept in an explicit heap; a reference is the allocation index.  A
  reference held by a listener or by the pointer index always denotes an
  allocated record in JavaScript; on a world where that fails the look-up of
  the embedding finds no pointer.
* A listener is referred to by its position in `listeners` (the array only
  grows), a DOM node and an `EventDispatcher` object by a natural number.
* `eventDispatcher.dispatchEvent(...)` is recorded as an output: the list of
  emitted gesture events, each with the dispatcher it was published on and a
  snapshot of its payload.
* Pointer coordinates are integers and `Math.sqrt(dx^2 + dy^2) > DRAG_THRESHOLD`
  is decided exactly over the integers (`crossed`); `crossed_iff_sqrt` relates
  it to the real square root.
* DOM side effects of `createListener` (`setAttribute`, the `wheel` listener)
  are outside the model.
-/

namespace TouchEvents

/-! ## Data model -/

/-- The `type` of a window event delivered to `eventRegonizer`. -/
inductive EventType
  | pointerdown
  | pointermove
  | pointerup
  | pointercancel
  | pointerleave
  | contextmenu
  deriving DecidableEq, Repr

/-- The fields of a pointer event read by the module. -/
structure Event where
  type : EventType
  pointerId : Int
  target : Nat
  clientX : Int
  clientY : Int
  buttons : Nat
  deriving DecidableEq, Repr

/-- Values of `state.currentEvent`:
`'idle'`, `'idle-drag'`, `'drag'`, `'seconddrag'`, `'multitouch'`. -/
inductive CurrentEvent
  | idle
  | idleDrag
  | drag
  | seconddrag
  | multitouch
  deriving DecidableEq, Repr

/-- The `type` string of a dispatched gesture event: `'tap'`, the current event
itself, or the current event followed by `start` or by `end`. -/
inductive GestureType
  | tap
  | during (s : CurrentEvent)
  | start (s : CurrentEvent)
  | ending (s : CurrentEvent)
  deriving DecidableEq, Repr

/-- The payload shapes passed to `dispatchEvent` (next to `type`):
`{ event }`, `{ events }`, `{ event, preEvents }`; `noEvent` is `{ event }` with
`event` undefined (destructuring an empty array). -/
inductive Payload
  | single (event : Event)
  | many (events : List Event)
  | withPre (event : Event) (preEvents : List Event)
  | noEvent
  deriving DecidableEq, Repr

/-- One call of `eventDispatcher.dispatchEvent`. -/
structure Emitted where
  dispatcher : Nat
  type : GestureType
  payload : Payload
  deriving DecidableEq, Repr

/-- A pointer record `{ event, start, preEvents, listener }`. -/
structure Pointer where
  event : Event
  start : Event
  preEvents : List Event
  listener : Nat
  deriving DecidableEq, Repr

/-- The object `listener.state`; `pointers` holds references into the heap. -/
structure GestureState where
  currentEvent : CurrentEvent
  pointers : List Nat
  deriving DecidableEq, Repr

/-- An element `{ DOMNode, eventDispatcher, state }` of `listeners`. -/
structure Listener where
  DOMNode : Nat
  eventDispatcher : Nat
  state : GestureState
  deriving DecidableEq, Repr

/-- The object `CONFIG`. -/
structure Config where
  DRAG_THRESHOLD : Int
  deriving DecidableEq, Repr

/-- The module state: `CONFIG`, `listeners`, `pointers` (pointer id to record
reference), the heap of pointer records and the number of `EventDispatcher`
objects created so far. -/
structure World where
  CONFIG : Config
  listeners : List Listener
  pointers : List (Int × Nat)
  heap : List Pointer
  dispatchers : Nat
  deriving DecidableEq, Repr

/-- What `createListener` returns: a DOM node or an `EventDispatcher`. -/
inductive Handle
  | domNode (n : Nat)
  | dispatcher (d : Nat)
  deriving DecidableEq, Repr

/-- The module state right after loading. -/
def init : World :=
  { CONFIG := { DRAG_THRESHOLD := 10 }, listeners := [], pointers := [], heap := [],
    dispatchers := 0 }

/-! ## Configuration -/

/-- A JavaScript exception raised by the module. -/
inductive JsError
  | typeError
  deriving DecidableEq, Repr

/-- The own keys of the object `CONFIG`. -/
inductive ConfigKey
  | DRAG_THRESHOLD
  deriving DecidableEq, Repr

/-- The iterator that `for (const key of CONFIG)` asks of `CONFIG`: an object
literal has no `Symbol.iterator` method, so obtaining the iterator throws a
`TypeError` before the loop body runs. -/
def configIterator (_ : Config) : Except JsError (List ConfigKey) :=
  Except.error JsError.typeError

/-- The assignment `CONFIG[key] = value`. -/
def setConfigKey (c : Config) (key : ConfigKey) (value : Int) : Config :=
  match key with
  | ConfigKey.DRAG_THRESHOLD => { c with DRAG_THRESHOLD := value }

/-- Embedding of `setConfig(config)`; `config key` is `config[key]`, with `none`
for `undefined`. -/
def setConfig (w : World) (config : ConfigKey → Option Int) : Except JsError World :=
  match configIterator w.CONFIG with
  | Except.error e => Except.error e
  | Except.ok keys =>
    Except.ok { w with
      CONFIG := keys.foldl (fun c key =>
        match config key with
        | some value => setConfigKey c key value
        | none => c) w.CONFIG }

/-! ## Registration -/

/-- Embedding of `createListener(DOMNode)`. -/
def createListener (w : World) (DOMNode : Nat) : World × Handle :=
  match w.listeners.find? (fun listener => listener.DOMNode == DOMNode) with
  | some listener => (w, Handle.domNode listener.DOMNode)
  | none =>
    let eventDispatcher := w.dispatchers
    let state : GestureState := { currentEvent := CurrentEvent.idle, pointers := [] }
    ({ w with
        listeners := w.listeners ++ [{ DOMNode := DOMNode, eventDispatcher := eventDispatcher,
                                       state := state }],
        dispatchers := w.dispatchers + 1 },
      Handle.dispatcher eventDispatcher)

/-! ## Helpers of `eventRegonizer` -/

/-- Embedding of `listeners.find(({ DOMNode }) => DOMNode === target)`: the first
listener on `target`, with its position. -/
def findListener : List Listener → Nat → Option (Nat × Listener)
  | [], _ => none
  | listener :: rest, target =>
    if listener.DOMNode = target then some (0, listener)
    else (findListener rest target).map (fun il => (il.1 + 1, il.2))

/-- Embedding of `pointers[pointerId] = pointer`. -/
def setPointer (pointers : List (Int × Nat)) (pointerId : Int) (r : Nat) : List (Int × Nat) :=
  pointers.filter (fun kv => kv.1 != pointerId) ++ [(pointerId, r)]

/-- Embedding of `delete pointers[pointerId]`. -/
def deletePointer (pointers : List (Int × Nat)) (pointerId : Int) : List (Int × Nat) :=
  pointers.filter (fun kv => kv.1 != pointerId)

/-- Embedding of `pointers[pointerId]` followed by `const { listener } = pointer`:
the reference, the record and its listener. -/
def lookupPointer (w : World) (pointerId : Int) : Option (Nat × Pointer × Listener) :=
  match w.pointers.lookup pointerId with
  | none => none
  | some r =>
    match w.heap[r]? with
    | none => none
    | some pointer =>
      match w.listeners[pointer.listener]? with
      | none => none
      | some listener => some (r, pointer, listener)

/-- Embedding of `getCurrentEvents`: the latest event of each pointer of a state. -/
def getCurrentEvents (heap : List Pointer) (state : GestureState) : List Event :=
  state.pointers.filterMap (fun r => (heap[r]?).map (fun pointer => pointer.event))

/-- The body of the `forEach` in `resetPointersStart`. -/
def resetStart (pointer : Pointer) : Pointer :=
  { pointer with start := pointer.event, preEvents := [pointer.event] }

/-- Embedding of `resetPointersStart`: every pointer of the state, in order. -/
def resetPointersStart (heap : List Pointer) (state : GestureState) : List Pointer :=
  state.pointers.foldl (fun h r => List.modify resetStart r h) heap

/-- Embedding of `Array.prototype.indexOf`: first position, or `-1`. -/
def indexOf (xs : List Nat) (r : Nat) : Int :=
  if r ∈ xs then (List.indexOf r xs : Nat) else -1

/-- Embedding of `Array.prototype.splice(start, 1)`: a negative `start` counts
from the end (clamped at `0`), nothing is removed at or past the end. -/
def splice (xs : List Nat) (start : Int) : List Nat :=
  if start < 0 then xs.eraseIdx (xs.length + start).toNat
  else xs.eraseIdx start.toNat

/-- The test `distance > CONFIG.DRAG_THRESHOLD` with
`distance = Math.sqrt(deltaX ^ 2 + deltaY ^ 2)`, decided over the integers. -/
def crossed (threshold : Int) (start event : Event) : Bool :=
  let deltaX := start.clientX - event.clientX
  let deltaY := start.clientY - event.clientY
  decide (threshold < 0 ∨ threshold * threshold < deltaX * deltaX + deltaY * deltaY)

/-- The guard `event.buttons & 2`. -/
def secondButton (event : Event) : Bool :=
  event.buttons &&& 2 != 0

/-- Replace the state of the listener at position `i`. -/
def setState (w : World) (i : Nat) (listener : Listener) (state : GestureState) : List Listener :=
  w.listeners.set i { listener with state := state }

/-! ## The recognizer -/

/-- Embedding of `case 'pointerdown'`. -/
def pointerdown (w : World) (event : Event) : World × List Emitted :=
  match findListener w.listeners event.target with
  | none => (w, [])
  | some (i, listener) =>
    let pointer : Pointer :=
      { event := event, start := event, preEvents := [event], listener := i }
    let ended : List Emitted :=
      if 1 ≤ listener.state.pointers.length then
        let events := getCurrentEvents w.heap listener.state
        if listener.state.currentEvent = CurrentEvent.drag then
          [{ dispatcher := listener.eventDispatcher,
             type := GestureType.ending listener.state.currentEvent,
             payload := match events with
               | e :: _ => Payload.single e
               | [] => Payload.noEvent }]
        else
          [{ dispatcher := listener.eventDispatcher,
             type := GestureType.ending listener.state.currentEvent,
             payload := Payload.many events }]
      else []
    let r := w.heap.length
    let heap := w.heap ++ [pointer]
    let pointers := setPointer w.pointers event.pointerId r
    let statePointers := listener.state.pointers ++ [r]
    if 2 ≤ statePointers.length then
      let state : GestureState :=
        { currentEvent := CurrentEvent.multitouch, pointers := statePointers }
      ({ w with heap := heap, pointers := pointers, listeners := setState w i listener state },
        ended ++ [{ dispatcher := listener.eventDispatcher,
                    type := GestureType.start CurrentEvent.multitouch,
                    payload := Payload.many (getCurrentEvents heap state) }])
    else
      let state : GestureState := { listener.state with pointers := statePointers }
      ({ w with heap := heap, pointers := pointers, listeners := setState w i listener state },
        ended)

/-- Embedding of `case 'pointermove'`. -/
def pointermove (w : World) (event : Event) : World × List Emitted :=
  match lookupPointer w event.pointerId with
  | none => (w, [])
  | some (r, pointer, listener) =>
    let updated : Pointer := { pointer with event := event }
    let heap := w.heap.set r updated
    match listener.state.currentEvent with
    | CurrentEvent.idle | CurrentEvent.idleDrag =>
      if crossed w.CONFIG.DRAG_THRESHOLD pointer.start event then
        let currentEvent :=
          if secondButton event then CurrentEvent.seconddrag else CurrentEvent.drag
        ({ w with
            heap := heap,
            listeners := setState w pointer.listener listener
              { listener.state with currentEvent := currentEvent } },
          [{ dispatcher := listener.eventDispatcher,
             type := GestureType.start currentEvent,
             payload := Payload.withPre pointer.start pointer.preEvents }])
      else
        ({ w with heap := w.heap.set r { updated with preEvents := pointer.preEvents ++ [event] } },
          [])
    | CurrentEvent.drag | CurrentEvent.seconddrag =>
      ({ w with heap := heap },
        [{ dispatcher := listener.eventDispatcher,
           type := GestureType.during listener.state.currentEvent,
           payload := Payload.single event }])
    | CurrentEvent.multitouch =>
      ({ w with heap := heap },
        [{ dispatcher := listener.eventDispatcher,
           type := GestureType.during listener.state.currentEvent,
           payload := Payload.many (getCurrentEvents heap listener.state) }])

/-- Embedding of `case 'pointercancel': case 'pointerleave': case 'pointerup'`. -/
def pointerrelease (w : World) (event : Event) : World × List Emitted :=
  match lookupPointer w event.pointerId with
  | none => (w, [])
  | some (r, pointer, listener) =>
    let heap := w.heap.set r { pointer with event := event }
    let ended : List Emitted :=
      if listener.state.currentEvent = CurrentEvent.multitouch then
        [{ dispatcher := listener.eventDispatcher,
           type := GestureType.ending listener.state.currentEvent,
           payload := Payload.many (getCurrentEvents heap listener.state) }]
      else []
    let pointers := deletePointer w.pointers event.pointerId
    let statePointers := splice listener.state.pointers (indexOf listener.state.pointers r)
    let state : GestureState := { listener.state with pointers := statePointers }
    match listener.state.currentEvent with
    | CurrentEvent.multitouch =>
      let events := getCurrentEvents heap state
      let heap := resetPointersStart heap state
      if statePointers.length = 1 then
        ({ w with
            heap := List.modify (fun p => { p with preEvents := events.take 1 }) r heap,
            pointers := pointers,
            listeners := setState w pointer.listener listener
              { state with currentEvent := CurrentEvent.idleDrag } },
          ended)
      else if 1 < statePointers.length then
        ({ w with heap := heap, pointers := pointers,
                  listeners := setState w pointer.listener listener state },
          ended ++ [{ dispatcher := listener.eventDispatcher,
                      type := GestureType.start listener.state.currentEvent,
                      payload := Payload.many events }])
      else
        ({ w with heap := heap, pointers := pointers,
                  listeners := setState w pointer.listener listener state },
          ended)
    | CurrentEvent.drag | CurrentEvent.seconddrag =>
      ({ w with heap := heap, pointers := pointers,
                listeners := setState w pointer.listener listener
                  { state with currentEvent := CurrentEvent.idle } },
        ended ++ [{ dispatcher := listener.eventDispatcher,
                    type := GestureType.ending listener.state.currentEvent,
                    payload := Payload.single event }])
    | CurrentEvent.idle =>
      ({ w with heap := heap, pointers := pointers,
                listeners := setState w pointer.listener listener state },
        ended ++ [{ dispatcher := listener.eventDispatcher,
                    type := GestureType.tap,
                    payload := Payload.single event }])
    | CurrentEvent.idleDrag =>
      ({ w with heap := heap, pointers := pointers,
                listeners := setState w pointer.listener listener
                  { state with currentEvent := CurrentEvent.idle } },
        ended)

/-- Embedding of `eventRegonizer(event)`: the new module state and the gesture
events dispatched, in order. -/
def eventRegonizer (w : World) (event : Event) : World × List Emitted :=
  match event.type with
  | EventType.pointerdown => pointerdown w event
  | EventType.pointermove => pointermove w event
  | EventType.pointercancel | EventType.pointerleave | EventType.pointerup =>
    pointerrelease w event
  | EventType.contextmenu => (w, [])

/-- Embedding of `onblur()`. -/
def onblur (w : World) : World :=
  { w with
      pointers := [],
      listeners := w.listeners.map (fun listener =>
        { listener with state := { currentEvent := CurrentEvent.idle, pointers := [] } }) }

/-! ## Traces -/

/-- What can happen to the module: a registration, a window pointer event, a
window blur. -/
inductive Action
  | register (DOMNode : Nat)
  | pointer (event : Event)
  | blur
  deriving DecidableEq, Repr

/-- One action: the new module state and the gesture events dispatched. -/
def step (w : World) : Action → World × List Emitted
  | Action.register DOMNode => ((createListener w DOMNode).1, [])
  | Action.pointer event => eventRegonizer w event
  | Action.blur => (onblur w, [])

/-- A finite sequence of actions, with all gesture events dispatched on the way. -/
def run (w : World) : List Action → World × List Emitted
  | [] => (w, [])
  | a :: rest => ((run (step w a).1 rest).1, (step w a).2 ++ (run (step w a).1 rest).2)

/-! ## Vocabulary of the statements -/

/-- The squared Euclidean distance between the positions of two events. -/
def distSq (a b : Event) : Int :=
  (a.clientX - b.clientX) ^ 2 + (a.clientY - b.clientY) ^ 2

/-- The events that release a pointer: `pointerup`, `pointercancel`, `pointerleave`. -/
def isRelease (event : Event) : Prop :=
  event.type = EventType.pointerup ∨ event.type = EventType.pointercancel ∨
    event.type = EventType.pointerleave

instance (event : Event) : Decidable (isRelease event) := by
  unfold isRelease; infer_instance

/-- The current event is `'drag'` or `'seconddrag'`. -/
def isDragging (c : CurrentEvent) : Prop :=
  c = CurrentEvent.drag ∨ c = CurrentEvent.seconddrag

instance (c : CurrentEvent) : Decidable (isDragging c) := by
  unfold isDragging; infer_instance

/-- The current event is `'idle'` or `'idle-drag'`. -/
def isIdling (c : CurrentEvent) : Prop :=
  c = CurrentEvent.idle ∨ c = CurrentEvent.idleDrag

instance (c : CurrentEvent) : Decidable (isIdling c) := by
  unfold isIdling; infer_instance

/-- The world in which the listener at position `i` holds exactly one pointer,
the record `p` allocated last and indexed under `pointerId`, with current event `c`. -/
def onePointer (w : World) (i : Nat) (listener : Listener) (c : CurrentEvent)
    (pointerId : Int) (p : Pointer) : World :=
  { w with
      heap := w.heap ++ [p],
      pointers := setPointer w.pointers pointerId w.heap.length,
      listeners := w.listeners.set i
        { listener with state := { currentEvent := c, pointers := [w.heap.length] } } }

/-- The multitouch invariant of one listener: `'multitouch'` exactly with at least
two pointers. -/
def MultitouchInv (l : Listener) : Prop :=
  l.state.currentEvent = CurrentEvent.multitouch ↔ 2 ≤ l.state.pointers.length

/-- Consistency of the two registries and of the gesture states: the threshold
is non-negative; the multitouch invariant holds; every indexed record is
allocated and is held by its own listener; no record is indexed under two pointer
ids; every record held by a listener names that listener; a dragging listener
holds exactly one pointer; and the single pointer of an idling listener has not
crossed the threshold. -/
structure Consistent (w : World) : Prop where
  threshold : 0 ≤ w.CONFIG.DRAG_THRESHOLD
  multitouch : ∀ l ∈ w.listeners, MultitouchInv l
  indexed : ∀ (pointerId : Int) (r : Nat), w.pointers.lookup pointerId = some r →
    ∃ (p : Pointer) (l : Listener),
      w.heap[r]? = some p ∧ w.listeners[p.listener]? = some l ∧ r ∈ l.state.pointers
  injective : ∀ (k1 k2 : Int) (r : Nat),
    w.pointers.lookup k1 = some r → w.pointers.lookup k2 = some r → k1 = k2
  owned : ∀ (i : Nat) (l : Listener), w.listeners[i]? = some l → ∀ r ∈ l.state.pointers,
    ∃ p : Pointer, w.heap[r]? = some p ∧ p.listener = i
  dragging : ∀ (i : Nat) (l : Listener), w.listeners[i]? = some l →
    isDragging l.state.currentEvent → l.state.pointers.length = 1
  resting : ∀ (i : Nat) (l : Listener), w.listeners[i]? = some l →
    isIdling l.state.currentEvent → ∀ r : Nat, l.state.pointers = [r] →
      ∃ p : Pointer, w.heap[r]? = some p ∧
        crossed w.CONFIG.DRAG_THRESHOLD p.start p.event = false

/-- The current event after a release, from the current event before it and the
number of pointers left. -/
def afterRelease (c : CurrentEvent) (left : Nat) : CurrentEvent :=
  match c with
  | CurrentEvent.multitouch =>
    if left = 1 then CurrentEvent.idleDrag else CurrentEvent.multitouch
  | _ => CurrentEvent.idle

/-! ## Sample inputs -/

/-- A pointer event on DOM node `7` with the primary button only. -/
def sampleEvent (type : EventType) (pointerId : Int) (x y : Int) : Event :=
  { type := type, pointerId := pointerId, target := 7, clientX := x, clientY := y, buttons := 1 }

/-- The module after `createListener` on DOM node `7`. -/
def sampleWorld : World := (createListener init 7).1

/-- The listener created for DOM node `7`. -/
def sampleListener : Listener :=
  { DOMNode := 7, eventDispatcher := 0,
    state := { currentEvent := CurrentEvent.idle, pointers := [] } }

/-! ## Basic facts about the helpers -/

theorem findListener_some {ls : List Listener} {target i : Nat} {listener : Listener}
    (h : findListener ls target = some (i, listener)) :
    ls[i]? = some listener ∧ listener.DOMNode = target := by
  induction ls generalizing i with
  | nil => simp [findListener] at h
  | cons a rest ih =>
    unfold findListener at h
    split at h
    · rename_i ha
      simp only [Option.some.injEq, Prod.mk.injEq] at h
      obtain ⟨rfl, rfl⟩ := h
      exact ⟨by simp, ha⟩
    · cases hr : findListener rest target with
      | none => simp [hr] at h
      | some il =>
        obtain ⟨j, l⟩ := il
        simp only [hr, Option.map_some', Option.some.injEq, Prod.mk.injEq] at h
        obtain ⟨rfl, rfl⟩ := h
        have := ih hr
        simpa using this

theorem findListener_none {ls : List Listener} {target : Nat} :
    findListener ls target = none ↔ ∀ l ∈ ls, l.DOMNode ≠ target := by
  induction ls with
  | nil => simp [findListener]
  | cons a rest ih =>
    unfold findListener
    by_cases ha : a.DOMNode = target
    · simp [ha]
    · simp [ha, ih]

theorem lookup_filter_ne (m : List (Int × Nat)) (k k' : Int) :
    (m.filter (fun kv => kv.1 != k)).lookup k' = if k' = k then none else m.lookup k' := by
  induction m with
  | nil => simp
  | cons a rest ih =>
    obtain ⟨a1, a2⟩ := a
    by_cases h1 : a1 = k
    · subst h1
      have hf : (a1 != a1) = false := by simp
      rw [List.filter_cons, hf, if_neg (by simp), ih]
      by_cases h2 : k' = a1
      · simp [h2]
      · have : (k' == a1) = false := by simpa using h2
        simp [h2, List.lookup_cons, this]
    · have hf : (a1 != k) = true := by simpa using h1
      by_cases h2 : k' = a1
      · subst h2
        simp [List.filter_cons, hf, List.lookup_cons, h1]
      · have : (k' == a1) = false := by simpa using h2
        simp [List.filter_cons, hf, List.lookup_cons, this, ih]

theorem lookup_append_single (m : List (Int × Nat)) (k k' : Int) (r : Nat) :
    (m ++ [(k, r)]).lookup k' = (m.lookup k').or (if k' = k then some r else none) := by
  induction m with
  | nil =>
    by_cases h : k' = k
    · simp [List.lookup_cons, h]
    · have : (k' == k) = false := by simpa using h
      simp [List.lookup_cons, h, this]
  | cons a rest ih =>
    obtain ⟨a1, a2⟩ := a
    by_cases h2 : k' = a1
    · simp [List.lookup_cons, h2]
    · have : (k' == a1) = false := by simpa using h2
      simp [List.lookup_cons, this, ih]

theorem lookup_setPointer (m : List (Int × Nat)) (k k' : Int) (r : Nat) :
    (setPointer m k r).lookup k' = if k' = k then some r else m.lookup k' := by
  unfold setPointer
  rw [lookup_append_single, lookup_filter_ne]
  by_cases h : k' = k
  · simp [h]
  · simp [h]

theorem lookup_deletePointer (m : List (Int × Nat)) (k k' : Int) :
    (deletePointer m k).lookup k' = if k' = k then none else m.lookup k' :=
  lookup_filter_ne m k k'

theorem splice_indexOf_of_mem {xs : List Nat} {r : Nat} (h : r ∈ xs) :
    splice xs (indexOf xs r) = xs.erase r := by
  unfold splice indexOf
  simp only [h, if_true]
  have : ¬ ((List.indexOf r xs : Nat) : Int) < 0 := by omega
  simp only [this, if_false, Int.toNat_ofNat]
  exact List.eraseIdx_indexOf_eq_erase r xs

theorem splice_indexOf_of_not_mem {xs : List Nat} {r : Nat} (h : r ∉ xs) :
    splice xs (indexOf xs r) = xs.dropLast := by
  unfold splice indexOf
  simp only [h, if_false]
  cases xs with
  | nil => simp
  | cons a rest =>
    have : ((a :: rest).length + (-1 : Int)).toNat = rest.length := by
      simp
    simp only [show ((-1 : Int) < 0) by decide, if_true, this]
    exact (List.dropLast_eq_eraseIdx (by simp)).symm

theorem length_splice_indexOf (xs : List Nat) (r : Nat) :
    (splice xs (indexOf xs r)).length = xs.length - 1 := by
  by_cases h : r ∈ xs
  · rw [splice_indexOf_of_mem h, List.length_erase_of_mem h]
  · rw [splice_indexOf_of_not_mem h, List.length_dropLast]

theorem crossed_eq_true_iff (threshold : Int) (a b : Event) :
    crossed threshold a b = true ↔ threshold < 0 ∨ threshold ^ 2 < distSq a b := by
  unfold crossed distSq
  simp only [decide_eq_true_eq, pow_two]

theorem crossed_eq_false_iff (threshold : Int) (a b : Event) :
    crossed threshold a b = false ↔ 0 ≤ threshold ∧ distSq a b ≤ threshold ^ 2 := by
  rw [← Bool.not_eq_true, crossed_eq_true_iff]
  constructor
  · intro h
    constructor <;> omega
  · rintro ⟨h1, h2⟩
    omega

/-- The integer test of `crossed` is the source's comparison of the real
square root of `deltaX ^ 2 + deltaY ^ 2` with the threshold. -/
theorem crossed_iff_sqrt (threshold : Int) (a b : Event) :
    crossed threshold a b = true ↔
      (threshold : ℝ) < Real.sqrt (((a.clientX - b.clientX : Int) : ℝ) ^ 2 +
        ((a.clientY - b.clientY : Int) : ℝ) ^ 2) := by
  rw [crossed_eq_true_iff]
  unfold distSq
  by_cases hT : threshold < 0
  · have h1 : (threshold : ℝ) < 0 := by exact_mod_cast hT
    constructor
    · intro _
      exact lt_of_lt_of_le h1 (Real.sqrt_nonneg _)
    · intro _
      exact Or.inl hT
  · have h0 : (0 : ℝ) ≤ (threshold : ℝ) := by
      have : 0 ≤ threshold := by omega
      exact_mod_cast this
    rw [Real.lt_sqrt h0]
    constructor
    · rintro (h | h)
      · exact absurd h hT
      · exact_mod_cast h
    · intro h
      right
      exact_mod_cast h

theorem lookupPointer_eq_some {w : World} {pointerId : Int} {r : Nat} {pointer : Pointer}
    {listener : Listener} (h1 : w.pointers.lookup pointerId = some r)
    (h2 : w.heap[r]? = some pointer) (h3 : w.listeners[pointer.listener]? = some listener) :
    lookupPointer w pointerId = some (r, pointer, listener) := by
  simp only [lookupPointer, h1, h2, h3]

theorem lookupPointer_eq_none {w : World} {pointerId : Int}
    (h : w.pointers.lookup pointerId = none) : lookupPointer w pointerId = none := by
  simp only [lookupPointer, h]

/-! ## Registration, blur and unresolvable events -/

/-- C3 (code defect): whatever the module state, the second of two consecutive
`createListener` calls on the same DOM node returns the DOM node itself, not an
event dispatcher; on a fresh module the first call returned dispatcher `0`. -/
theorem createListener_second_call_returns_DOMNode (w : World) (DOMNode : Nat) :
    (createListener (createListener w DOMNode).1 DOMNode).2 = Handle.domNode DOMNode ∧
    (createListener init DOMNode).2 = Handle.dispatcher 0 := by
  refine ⟨?_, rfl⟩
  have key : ∀ w1 : World, ∀ l, w1.listeners.find? (fun listener => listener.DOMNode == DOMNode) = some l →
      (createListener w1 DOMNode).2 = Handle.domNode DOMNode := by
    intro w1 l hl
    have hd : l.DOMNode = DOMNode := by
      have := List.find?_some hl
      simpa using this
    simp only [createListener, hl, hd]
  cases hf : w.listeners.find? (fun listener => listener.DOMNode == DOMNode) with
  | some l =>
    have h1 : (createListener w DOMNode).1 = w := by simp only [createListener, hf]
    rw [h1]
    exact key w l hf
  | none =>
    have h1 : (createListener w DOMNode).1.listeners =
        w.listeners ++ [{ DOMNode := DOMNode, eventDispatcher := w.dispatchers,
                          state := { currentEvent := CurrentEvent.idle, pointers := [] } }] := by
      simp only [createListener, hf]
    apply key _ { DOMNode := DOMNode, eventDispatcher := w.dispatchers,
                          state := { currentEvent := CurrentEvent.idle, pointers := [] } }
    rw [h1, List.find?_append, hf]
    simp

/-- C9: from every module state a blur dispatches nothing, empties the pointer
index, leaves every listener with state `{ currentEvent: 'idle', pointers: [] }`
and keeps the DOM node and the dispatcher of every listener, in order. -/
theorem blur_resets_every_surface (w : World) :
    (step w Action.blur).2 = [] ∧
    (step w Action.blur).1.pointers = [] ∧
    (∀ pointerId, (step w Action.blur).1.pointers.lookup pointerId = none) ∧
    (∀ l ∈ (step w Action.blur).1.listeners,
      l.state = { currentEvent := CurrentEvent.idle, pointers := [] }) ∧
    (step w Action.blur).1.listeners.map (fun l => (l.DOMNode, l.eventDispatcher)) =
      w.listeners.map (fun l => (l.DOMNode, l.eventDispatcher)) := by
  refine ⟨rfl, rfl, fun _ => rfl, ?_, ?_⟩
  · intro l hl
    simp only [step, onblur, List.mem_map] at hl
    obtain ⟨l0, _, rfl⟩ := hl
    rfl
  · simp only [step, onblur, List.map_map]
    rfl

/-- C10: a move, up, cancel or leave event whose pointer id is not in the pointer
index, and a press whose target carries no listener, leave the whole module
state as it is and dispatch nothing. -/
theorem unresolvable_event_is_noop (w : World) (event : Event)
    (h : ((event.type = EventType.pointermove ∨ isRelease event) ∧
            w.pointers.lookup event.pointerId = none) ∨
         (event.type = EventType.pointerdown ∧
            ∀ l ∈ w.listeners, l.DOMNode ≠ event.target)) :
    eventRegonizer w event = (w, []) := by
  rcases h with ⟨ht, hl⟩ | ⟨ht, hl⟩
  · have hn := lookupPointer_eq_none hl
    rcases ht with ht | ht | ht | ht <;>
      simp only [eventRegonizer, ht, pointermove, pointerrelease, hn]
  · have hn := findListener_none.mpr hl
    simp only [eventRegonizer, ht, pointerdown, hn]

theorem unresolvable_event_is_noop_witness :
    eventRegonizer sampleWorld (sampleEvent EventType.pointermove 1 3 4) = (sampleWorld, []) :=
  unresolvable_event_is_noop sampleWorld (sampleEvent EventType.pointermove 1 3 4)
    (Or.inl ⟨Or.inl rfl, rfl⟩)

/-! ## The drag threshold -/

theorem pointermove_idle_within {w : World} {event : Event} {r : Nat} {pointer : Pointer}
    {listener : Listener} (hl : lookupPointer w event.pointerId = some (r, pointer, listener))
    (hs : isIdling listener.state.currentEvent)
    (hc : crossed w.CONFIG.DRAG_THRESHOLD pointer.start event = false) :
    pointermove w event =
      ({ w with heap :=
          w.heap.set r { pointer with event := event, preEvents := pointer.preEvents ++ [event] } },
        []) := by
  rcases hs with hs | hs <;> simp [pointermove, hl, hs, hc]

theorem pointermove_idle_crossed {w : World} {event : Event} {r : Nat} {pointer : Pointer}
    {listener : Listener} (hl : lookupPointer w event.pointerId = some (r, pointer, listener))
    (hs : isIdling listener.state.currentEvent)
    (hc : crossed w.CONFIG.DRAG_THRESHOLD pointer.start event = true) :
    pointermove w event =
      ({ w with
          heap := w.heap.set r { pointer with event := event },
          listeners := w.listeners.set pointer.listener
            { listener with state :=
              { listener.state with currentEvent :=
                  (if secondButton event then CurrentEvent.seconddrag else CurrentEvent.drag) } } },
        [{ dispatcher := listener.eventDispatcher,
           type := GestureType.start
             (if secondButton event then CurrentEvent.seconddrag else CurrentEvent.drag),
           payload := Payload.withPre pointer.start pointer.preEvents }]) := by
  rcases hs with hs | hs <;> simp [pointermove, hl, hs, hc, setState]

/-- C6: for a listener in `'idle'` or `'idle-drag'` and a move of its known
pointer: at distance exactly `DRAG_THRESHOLD` from the pointer's start (a
non-negative threshold whose square is `deltaX ^ 2 + deltaY ^ 2`) nothing is
dispatched, the current event stays and the move is appended to `preEvents`; at
distance `DRAG_THRESHOLD + 1` the current event becomes `'drag'` or `'seconddrag'`
and the matching start event is dispatched with the start event and the
`preEvents`; and for a non-negative threshold the listener is dragging after the
move exactly when `deltaX ^ 2 + deltaY ^ 2 > DRAG_THRESHOLD ^ 2`. -/
theorem threshold_boundary_is_strict (w : World) (event : Event) (r : Nat) (pointer : Pointer)
    (listener : Listener)
    (hmove : event.type = EventType.pointermove)
    (hlook : w.pointers.lookup event.pointerId = some r)
    (hheap : w.heap[r]? = some pointer)
    (hlis : w.listeners[pointer.listener]? = some listener)
    (hstate : isIdling listener.state.currentEvent) :
    (0 ≤ w.CONFIG.DRAG_THRESHOLD →
      distSq pointer.start event = w.CONFIG.DRAG_THRESHOLD ^ 2 →
      eventRegonizer w event =
        ({ w with heap :=
          w.heap.set r { pointer with event := event, preEvents := pointer.preEvents ++ [event] } },
        [])) ∧
    (0 ≤ w.CONFIG.DRAG_THRESHOLD + 1 →
      distSq pointer.start event = (w.CONFIG.DRAG_THRESHOLD + 1) ^ 2 →
      ∃ c, isDragging c ∧
        eventRegonizer w event =
          ({ w with
              heap := w.heap.set r { pointer with event := event },
              listeners := w.listeners.set pointer.listener
                { listener with state := { listener.state with currentEvent := c } } },
            [{ dispatcher := listener.eventDispatcher,
               type := GestureType.start c,
               payload := Payload.withPre pointer.start pointer.preEvents }])) ∧
    (0 ≤ w.CONFIG.DRAG_THRESHOLD →
      ((∃ l, (eventRegonizer w event).1.listeners[pointer.listener]? = some l ∧
          isDragging l.state.currentEvent) ↔
        w.CONFIG.DRAG_THRESHOLD ^ 2 < distSq pointer.start event)) := by
  have hl := lookupPointer_eq_some hlook hheap hlis
  have he : eventRegonizer w event = pointermove w event := by
    simp only [eventRegonizer, hmove]
  have hlt : pointer.listener < w.listeners.length := by
    rcases List.getElem?_eq_some.mp hlis with ⟨h, _⟩
    exact h
  have hnd : ¬ isDragging listener.state.currentEvent := by
    rcases hstate with h | h <;> simp [isDragging, h]
  refine ⟨?_, ?_, ?_⟩
  · intro hT hd
    have hc : crossed w.CONFIG.DRAG_THRESHOLD pointer.start event = false := by
      rw [crossed_eq_false_iff]
      exact ⟨hT, le_of_eq hd⟩
    rw [he, pointermove_idle_within hl hstate hc]
  · intro hT hd
    have hc : crossed w.CONFIG.DRAG_THRESHOLD pointer.start event = true := by
      rw [crossed_eq_true_iff]
      by_cases hneg : w.CONFIG.DRAG_THRESHOLD < 0
      · exact Or.inl hneg
      · right
        rw [hd]
        nlinarith
    refine ⟨if secondButton event then CurrentEvent.seconddrag else CurrentEvent.drag, ?_, ?_⟩
    · unfold isDragging
      split <;> simp
    · rw [he, pointermove_idle_crossed hl hstate hc]
  · intro hT
    cases hc : crossed w.CONFIG.DRAG_THRESHOLD pointer.start event with
    | false =>
      rw [he, pointermove_idle_within hl hstate hc]
      have h2 := (crossed_eq_false_iff _ _ _).mp hc
      constructor
      · rintro ⟨l, hl1, hl2⟩
        simp only [hlis, Option.some.injEq] at hl1
        subst hl1
        exact absurd hl2 hnd
      · intro h
        omega
    | true =>
      rw [he, pointermove_idle_crossed hl hstate hc]
      have h2 := (crossed_eq_true_iff _ _ _).mp hc
      constructor
      · intro _
        rcases h2 with h2 | h2
        · omega
        · exact h2
      · intro _
        refine ⟨_, List.getElem?_set_self hlt, ?_⟩
        unfold isDragging
        split <;> simp

theorem threshold_boundary_is_strict_witness :
    eventRegonizer (eventRegonizer sampleWorld (sampleEvent EventType.pointerdown 1 0 0)).1
        (sampleEvent EventType.pointermove 1 6 8) =
      ({ (eventRegonizer sampleWorld (sampleEvent EventType.pointerdown 1 0 0)).1 with
          heap := (eventRegonizer sampleWorld (sampleEvent EventType.pointerdown 1 0 0)).1.heap.set 0
            { event := sampleEvent EventType.pointermove 1 6 8,
              start := sampleEvent EventType.pointerdown 1 0 0,
              preEvents := [sampleEvent EventType.pointerdown 1 0 0] ++
                [sampleEvent EventType.pointermove 1 6 8],
              listener := 0 } }, []) :=
  (threshold_boundary_is_strict
    (eventRegonizer sampleWorld (sampleEvent EventType.pointerdown 1 0 0)).1
    (sampleEvent EventType.pointermove 1 6 8) 0
    { event := sampleEvent EventType.pointerdown 1 0 0,
      start := sampleEvent EventType.pointerdown 1 0 0,
      preEvents := [sampleEvent EventType.pointerdown 1 0 0], listener := 0 }
    { DOMNode := 7, eventDispatcher := 0,
      state := { currentEvent := CurrentEvent.idle, pointers := [0] } }
    rfl (by decide) (by decide) (by decide) (Or.inl rfl)).1 (by decide) (by decide)

/-! ## Worlds with a single pointer on a listener -/

theorem set_append_length (h : List Pointer) (p q : Pointer) :
    (h ++ [p]).set h.length q = h ++ [q] := by
  induction h with
  | nil => rfl
  | cons a rest ih => simp [List.set_cons_succ, ih]

theorem set_eq_self {ls : List Listener} {i : Nat} {l : Listener} (h : ls[i]? = some l) :
    ls.set i l = ls := by
  apply List.ext_getElem?
  intro j
  rw [List.getElem?_set]
  by_cases hij : i = j
  · subst hij
    rw [if_pos rfl, h]
    rcases List.getElem?_eq_some.mp h with ⟨hlt, _⟩
    rw [if_pos hlt]
  · rw [if_neg hij]

theorem lookupPointer_onePointer (w : World) (i : Nat) (listener : Listener) (c : CurrentEvent)
    (pointerId : Int) (p : Pointer) (hi : i < w.listeners.length) (hp : p.listener = i) :
    lookupPointer (onePointer w i listener c pointerId p) pointerId =
      some (w.heap.length, p,
        { listener with state := { currentEvent := c, pointers := [w.heap.length] } }) := by
  apply lookupPointer_eq_some
  · simp only [onePointer, lookup_setPointer, if_true]
  · simp [onePointer]
  · simp only [onePointer, hp]
    exact List.getElem?_set_self hi

theorem pointerdown_on_empty (w : World) (event : Event) (i : Nat) (listener : Listener)
    (hreg : findListener w.listeners event.target = some (i, listener))
    (hempty : listener.state.pointers = []) :
    pointerdown w event =
      (onePointer w i listener listener.state.currentEvent event.pointerId
        { event := event, start := event, preEvents := [event], listener := i }, []) := by
  simp [pointerdown, hreg, hempty, onePointer, setState]

theorem move_onePointer_within (w : World) (i : Nat) (listener : Listener) (c : CurrentEvent)
    (p : Pointer) (event : Event) (hi : i < w.listeners.length) (hp : p.listener = i)
    (hc : isIdling c) (hmove : event.type = EventType.pointermove)
    (hd : crossed w.CONFIG.DRAG_THRESHOLD p.start event = false) :
    eventRegonizer (onePointer w i listener c event.pointerId p) event =
      (onePointer w i listener c event.pointerId
        { p with event := event, preEvents := p.preEvents ++ [event] }, []) := by
  have hl := lookupPointer_onePointer w i listener c event.pointerId p hi hp
  have he : eventRegonizer (onePointer w i listener c event.pointerId p) event =
      pointermove (onePointer w i listener c event.pointerId p) event := by
    simp only [eventRegonizer, hmove]
  rw [he, pointermove_idle_within hl hc hd]
  simp only [onePointer, set_append_length]

theorem move_onePointer_crossed (w : World) (i : Nat) (listener : Listener) (c : CurrentEvent)
    (p : Pointer) (event : Event) (hi : i < w.listeners.length) (hp : p.listener = i)
    (hc : isIdling c) (hmove : event.type = EventType.pointermove)
    (hd : crossed w.CONFIG.DRAG_THRESHOLD p.start event = true) :
    eventRegonizer (onePointer w i listener c event.pointerId p) event =
      (onePointer w i listener
        (if secondButton event then CurrentEvent.seconddrag else CurrentEvent.drag)
        event.pointerId { p with event := event },
        [{ dispatcher := listener.eventDispatcher,
           type := GestureType.start
             (if secondButton event then CurrentEvent.seconddrag else CurrentEvent.drag),
           payload := Payload.withPre p.start p.preEvents }]) := by
  have hl := lookupPointer_onePointer w i listener c event.pointerId p hi hp
  have he : eventRegonizer (onePointer w i listener c event.pointerId p) event =
      pointermove (onePointer w i listener c event.pointerId p) event := by
    simp only [eventRegonizer, hmove]
  rw [he, pointermove_idle_crossed hl hc hd]
  simp only [onePointer, set_append_length, hp, List.set_set]

theorem move_onePointer_dragging (w : World) (i : Nat) (listener : Listener) (c : CurrentEvent)
    (p : Pointer) (event : Event) (hi : i < w.listeners.length) (hp : p.listener = i)
    (hc : isDragging c) (hmove : event.type = EventType.pointermove) :
    eventRegonizer (onePointer w i listener c event.pointerId p) event =
      (onePointer w i listener c event.pointerId { p with event := event },
        [{ dispatcher := listener.eventDispatcher,
           type := GestureType.during c,
           payload := Payload.single event }]) := by
  have hl := lookupPointer_onePointer w i listener c event.pointerId p hi hp
  have he : eventRegonizer (onePointer w i listener c event.pointerId p) event =
      pointermove (onePointer w i listener c event.pointerId p) event := by
    simp only [eventRegonizer, hmove]
  rw [he]
  rcases hc with hc | hc <;> subst hc <;>
    simp [pointermove, hl] <;> simp only [onePointer, set_append_length]

/-- The world left by the release of the only pointer of listener `i`. -/
theorem release_onePointer (w : World) (i : Nat) (listener : Listener) (c : CurrentEvent)
    (p : Pointer) (event : Event) (hi : i < w.listeners.length) (hp : p.listener = i)
    (hc : c ≠ CurrentEvent.multitouch) (hrel : isRelease event) :
    eventRegonizer (onePointer w i listener c event.pointerId p) event =
      ({ w with
          heap := w.heap ++ [{ p with event := event }],
          pointers := deletePointer (setPointer w.pointers event.pointerId w.heap.length)
            event.pointerId,
          listeners := w.listeners.set i
            { listener with state := { currentEvent := CurrentEvent.idle, pointers := [] } } },
        if c = CurrentEvent.idle then
          [{ dispatcher := listener.eventDispatcher, type := GestureType.tap,
             payload := Payload.single event }]
        else if c = CurrentEvent.idleDrag then []
        else
          [{ dispatcher := listener.eventDispatcher, type := GestureType.ending c,
             payload := Payload.single event }]) := by
  have hl := lookupPointer_onePointer w i listener c event.pointerId p hi hp
  have he : eventRegonizer (onePointer w i listener c event.pointerId p) event =
      pointerrelease (onePointer w i listener c event.pointerId p) event := by
    rcases hrel with h | h | h <;> simp only [eventRegonizer, h]
  have hs : splice [w.heap.length] (indexOf [w.heap.length] w.heap.length) = [] := by
    rw [splice_indexOf_of_mem (by simp)]
    simp
  rw [he]
  cases c <;>
    simp [pointerrelease, hl, hs, setState] at hc ⊢ <;>
    simp only [onePointer, set_append_length, hp, List.set_set] <;> trivial

/-! ## Tap and drag traces -/

theorem run_append (w : World) (as bs : List Action) :
    run w (as ++ bs) = ((run (run w as).1 bs).1, (run w as).2 ++ (run (run w as).1 bs).2) := by
  induction as generalizing w with
  | nil => simp [run]
  | cons a rest ih => simp [run, ih, List.append_assoc]

theorem run_single (w : World) (a : Action) : run w [a] = step w a := by
  simp [run]

theorem run_moves_within (w : World) (i : Nat) (listener : Listener) (c : CurrentEvent)
    (pointerId : Int) (hi : i < w.listeners.length) (hc : isIdling c) :
    ∀ (moves : List Event) (p : Pointer), p.listener = i →
      (∀ m ∈ moves, m.type = EventType.pointermove ∧ m.pointerId = pointerId ∧
        crossed w.CONFIG.DRAG_THRESHOLD p.start m = false) →
      ∃ q : Pointer, q.start = p.start ∧ q.listener = i ∧ q.preEvents = p.preEvents ++ moves ∧
        run (onePointer w i listener c pointerId p) (moves.map Action.pointer) =
          (onePointer w i listener c pointerId q, []) := by
  intro moves
  induction moves with
  | nil =>
    intro p hp _
    exact ⟨p, rfl, hp, by simp, rfl⟩
  | cons m rest ih =>
    intro p hp hm
    obtain ⟨h1, h2, h3⟩ := hm m (List.mem_cons_self _ _)
    subst h2
    have hstep := move_onePointer_within w i listener c p m hi hp hc h1 h3
    obtain ⟨q, hq1, hq2, hq3, hq4⟩ :=
      ih { p with event := m, preEvents := p.preEvents ++ [m] } hp
        (fun m' hm' => hm m' (List.mem_cons_of_mem _ hm'))
    refine ⟨q, hq1, hq2, ?_, ?_⟩
    · rw [hq3]
      simp
    · simp only [List.map_cons, run, step, hstep, hq4, List.append_nil]

theorem run_moves_dragging (w : World) (i : Nat) (listener : Listener) (c : CurrentEvent)
    (pointerId : Int) (hi : i < w.listeners.length) (hc : isDragging c) :
    ∀ (moves : List Event) (p : Pointer), p.listener = i →
      (∀ m ∈ moves, m.type = EventType.pointermove ∧ m.pointerId = pointerId) →
      ∃ q : Pointer, q.listener = i ∧
        run (onePointer w i listener c pointerId p) (moves.map Action.pointer) =
          (onePointer w i listener c pointerId q,
            moves.map (fun m =>
              { dispatcher := listener.eventDispatcher, type := GestureType.during c,
                payload := Payload.single m })) := by
  intro moves
  induction moves with
  | nil =>
    intro p hp _
    exact ⟨p, hp, rfl⟩
  | cons m rest ih =>
    intro p hp hm
    obtain ⟨h1, h2⟩ := hm m (List.mem_cons_self _ _)
    subst h2
    have hstep := move_onePointer_dragging w i listener c p m hi hp hc h1
    obtain ⟨q, hq2, hq4⟩ :=
      ih { p with event := m } hp (fun m' hm' => hm m' (List.mem_cons_of_mem _ hm'))
    refine ⟨q, hq2, ?_⟩
    simp only [List.map_cons, run, step, hstep, hq4, List.singleton_append]

/-- C4: on a listener that is `'idle'` with no pointers, a press, then any
number of moves of that pointer within `DRAG_THRESHOLD` of the press, then a
release of that pointer dispatch exactly one gesture event, a `tap` carrying the
release event; afterwards every listener is as before the press (this one
`'idle'` with no pointers) and the pointer id is not in the pointer index. -/
theorem tap_trace (w : World) (i : Nat) (listener : Listener) (press release : Event)
    (moves : List Event)
    (hreg : findListener w.listeners press.target = some (i, listener))
    (hidle : listener.state = { currentEvent := CurrentEvent.idle, pointers := [] })
    (hpress : press.type = EventType.pointerdown)
    (hmoves : ∀ m ∈ moves, m.type = EventType.pointermove ∧ m.pointerId = press.pointerId ∧
      0 ≤ w.CONFIG.DRAG_THRESHOLD ∧ distSq press m ≤ w.CONFIG.DRAG_THRESHOLD ^ 2)
    (hrel : isRelease release) (hid : release.pointerId = press.pointerId) :
    (run w (Action.pointer press :: (moves.map Action.pointer ++ [Action.pointer release]))).2 =
      [{ dispatcher := listener.eventDispatcher, type := GestureType.tap,
         payload := Payload.single release }] ∧
    (run w (Action.pointer press ::
      (moves.map Action.pointer ++ [Action.pointer release]))).1.listeners = w.listeners ∧
    findListener (run w (Action.pointer press ::
      (moves.map Action.pointer ++ [Action.pointer release]))).1.listeners press.target =
        some (i, { listener with
          state := { currentEvent := CurrentEvent.idle, pointers := [] } }) ∧
    (run w (Action.pointer press ::
      (moves.map Action.pointer ++ [Action.pointer release]))).1.pointers.lookup
        press.pointerId = none := by
  obtain ⟨hget, _⟩ := findListener_some hreg
  have hi : i < w.listeners.length := (List.getElem?_eq_some.mp hget).1
  have hlis : ({ listener with
      state := { currentEvent := CurrentEvent.idle, pointers := [] } } : Listener) = listener := by
    rw [← hidle]
  have h0 : eventRegonizer w press =
      (onePointer w i listener CurrentEvent.idle press.pointerId
        { event := press, start := press, preEvents := [press], listener := i }, []) := by
    have := pointerdown_on_empty w press i listener hreg (by rw [hidle])
    simp only [eventRegonizer, hpress, this, hidle]
  obtain ⟨q, hq1, hq2, _, hq4⟩ :=
    run_moves_within w i listener CurrentEvent.idle press.pointerId hi
      (Or.inl rfl) moves
      { event := press, start := press, preEvents := [press], listener := i } rfl
      (fun m hm => ⟨(hmoves m hm).1, (hmoves m hm).2.1,
        (crossed_eq_false_iff _ _ _).mpr (hmoves m hm).2.2⟩)
  have h2 := release_onePointer w i listener CurrentEvent.idle q release hi hq2 (by decide) hrel
  rw [hid] at h2
  have hrun : run w (Action.pointer press ::
      (moves.map Action.pointer ++ [Action.pointer release])) =
      ({ w with
          heap := w.heap ++ [{ q with event := release }],
          pointers := deletePointer (setPointer w.pointers press.pointerId w.heap.length)
            press.pointerId,
          listeners := w.listeners.set i
            { listener with state := { currentEvent := CurrentEvent.idle, pointers := [] } } },
        [{ dispatcher := listener.eventDispatcher, type := GestureType.tap,
           payload := Payload.single release }]) := by
    simp only [run, step, h0, run_append, hq4, run_single, h2, List.nil_append, if_true,
      List.append_nil]
  rw [hrun]
  refine ⟨rfl, ?_, ?_, ?_⟩
  · simp only [hlis]
    exact set_eq_self hget
  · simp only [hlis, set_eq_self hget]
    exact hreg
  · simp only [lookup_deletePointer, if_true]

theorem tap_trace_witness :
    (run sampleWorld (Action.pointer (sampleEvent EventType.pointerdown 1 10 10) ::
      ([sampleEvent EventType.pointermove 1 11 10].map Action.pointer ++
        [Action.pointer (sampleEvent EventType.pointerup 1 12 11)]))).2 =
      [{ dispatcher := 0, type := GestureType.tap,
         payload := Payload.single (sampleEvent EventType.pointerup 1 12 11) }] :=
  (tap_trace sampleWorld 0 sampleListener (sampleEvent EventType.pointerdown 1 10 10)
    (sampleEvent EventType.pointerup 1 12 11) [sampleEvent EventType.pointermove 1 11 10]
    rfl rfl rfl
    (by intro m hm; rw [List.mem_singleton] at hm; subst hm; decide)
    (Or.inl rfl) rfl).1

/-- C5: on a listener that is `'idle'` with no pointers, the trace press; moves
within `DRAG_THRESHOLD` of the press; a move farther than `DRAG_THRESHOLD` from
the press with the secondary-button bit clear; further moves; release, all of one
pointer, dispatches exactly `dragstart` with the press event and the press
followed by the early moves as `preEvents`, one `drag` per further move, and
`dragend` with the release event; afterwards every listener is as before the
press and the pointer id is not in the pointer index. -/
theorem drag_trace (w : World) (i : Nat) (listener : Listener) (press cross release : Event)
    (pre drags : List Event)
    (hreg : findListener w.listeners press.target = some (i, listener))
    (hidle : listener.state = { currentEvent := CurrentEvent.idle, pointers := [] })
    (hpress : press.type = EventType.pointerdown)
    (hpre : ∀ m ∈ pre, m.type = EventType.pointermove ∧ m.pointerId = press.pointerId ∧
      0 ≤ w.CONFIG.DRAG_THRESHOLD ∧ distSq press m ≤ w.CONFIG.DRAG_THRESHOLD ^ 2)
    (hcross : cross.type = EventType.pointermove ∧ cross.pointerId = press.pointerId ∧
      (w.CONFIG.DRAG_THRESHOLD < 0 ∨ w.CONFIG.DRAG_THRESHOLD ^ 2 < distSq press cross) ∧
      cross.buttons &&& 2 = 0)
    (hdrags : ∀ m ∈ drags, m.type = EventType.pointermove ∧ m.pointerId = press.pointerId)
    (hrel : isRelease release) (hid : release.pointerId = press.pointerId) :
    (run w (Action.pointer press :: (pre.map Action.pointer ++
      (Action.pointer cross :: (drags.map Action.pointer ++ [Action.pointer release]))))).2 =
      { dispatcher := listener.eventDispatcher,
        type := GestureType.start CurrentEvent.drag,
        payload := Payload.withPre press (press :: pre) } ::
      (drags.map (fun m =>
          { dispatcher := listener.eventDispatcher,
            type := GestureType.during CurrentEvent.drag,
            payload := Payload.single m }) ++
        [{ dispatcher := listener.eventDispatcher,
           type := GestureType.ending CurrentEvent.drag,
           payload := Payload.single release }]) ∧
    (run w (Action.pointer press :: (pre.map Action.pointer ++
      (Action.pointer cross ::
        (drags.map Action.pointer ++ [Action.pointer release]))))).1.listeners = w.listeners ∧
    findListener (run w (Action.pointer press :: (pre.map Action.pointer ++
      (Action.pointer cross :: (drags.map Action.pointer ++
        [Action.pointer release]))))).1.listeners press.target =
        some (i, { listener with
          state := { currentEvent := CurrentEvent.idle, pointers := [] } }) ∧
    (run w (Action.pointer press :: (pre.map Action.pointer ++
      (Action.pointer cross :: (drags.map Action.pointer ++
        [Action.pointer release]))))).1.pointers.lookup press.pointerId = none := by
  obtain ⟨hget, _⟩ := findListener_some hreg
  have hi : i < w.listeners.length := (List.getElem?_eq_some.mp hget).1
  have hlis : ({ listener with
      state := { currentEvent := CurrentEvent.idle, pointers := [] } } : Listener) = listener := by
    rw [← hidle]
  obtain ⟨hc1, hc2, hc3, hc4⟩ := hcross
  have hsec : secondButton cross = false := by
    simp [secondButton, hc4]
  have h0 : eventRegonizer w press =
      (onePointer w i listener CurrentEvent.idle press.pointerId
        { event := press, start := press, preEvents := [press], listener := i }, []) := by
    have := pointerdown_on_empty w press i listener hreg (by rw [hidle])
    simp only [eventRegonizer, hpress, this, hidle]
  obtain ⟨q, hq1, hq2, hq3, hq4⟩ :=
    run_moves_within w i listener CurrentEvent.idle press.pointerId hi
      (Or.inl rfl) pre
      { event := press, start := press, preEvents := [press], listener := i } rfl
      (fun m hm => ⟨(hpre m hm).1, (hpre m hm).2.1,
        (crossed_eq_false_iff _ _ _).mpr (hpre m hm).2.2⟩)
  simp only at hq1 hq3
  have h1 := move_onePointer_crossed w i listener CurrentEvent.idle q cross hi hq2 (Or.inl rfl) hc1
    (by rw [hq1]; exact (crossed_eq_true_iff _ _ _).mpr hc3)
  rw [hc2, hsec] at h1
  simp only [Bool.false_eq_true, if_false] at h1
  obtain ⟨q2, hq21, hq22⟩ :=
    run_moves_dragging w i listener CurrentEvent.drag press.pointerId hi (Or.inl rfl) drags
      { q with event := cross } hq2 hdrags
  have h2 := release_onePointer w i listener CurrentEvent.drag q2 release hi hq21 (by decide) hrel
  rw [hid] at h2
  have hrun : run w (Action.pointer press :: (pre.map Action.pointer ++
      (Action.pointer cross :: (drags.map Action.pointer ++ [Action.pointer release])))) =
      ({ w with
          heap := w.heap ++ [{ q2 with event := release }],
          pointers := deletePointer (setPointer w.pointers press.pointerId w.heap.length)
            press.pointerId,
          listeners := w.listeners.set i
            { listener with state := { currentEvent := CurrentEvent.idle, pointers := [] } } },
        { dispatcher := listener.eventDispatcher,
          type := GestureType.start CurrentEvent.drag,
          payload := Payload.withPre press (press :: pre) } ::
        (drags.map (fun m =>
            { dispatcher := listener.eventDispatcher,
              type := GestureType.during CurrentEvent.drag,
              payload := Payload.single m }) ++
          [{ dispatcher := listener.eventDispatcher,
             type := GestureType.ending CurrentEvent.drag,
             payload := Payload.single release }])) := by
    simp only [run, step, h0, run_append, hq4, run_single, h1, hq22, h2]
    simp [hq1, hq3]
  rw [hrun]
  refine ⟨rfl, ?_, ?_, ?_⟩
  · simp only [hlis]
    exact set_eq_self hget
  · simp only [hlis, set_eq_self hget]
    exact hreg
  · simp only [lookup_deletePointer, if_true]

theorem drag_trace_witness :
    (run sampleWorld (Action.pointer (sampleEvent EventType.pointerdown 1 0 0) ::
      (([] : List Event).map Action.pointer ++
        (Action.pointer (sampleEvent EventType.pointermove 1 0 20) ::
          ([sampleEvent EventType.pointermove 1 0 25].map Action.pointer ++
            [Action.pointer (sampleEvent EventType.pointerup 1 0 25)]))))).2 =
      { dispatcher := 0, type := GestureType.start CurrentEvent.drag,
        payload := Payload.withPre (sampleEvent EventType.pointerdown 1 0 0)
          [sampleEvent EventType.pointerdown 1 0 0] } ::
      ([sampleEvent EventType.pointermove 1 0 25].map (fun m =>
          { dispatcher := 0, type := GestureType.during CurrentEvent.drag,
            payload := Payload.single m }) ++
        [{ dispatcher := 0, type := GestureType.ending CurrentEvent.drag,
           payload := Payload.single (sampleEvent EventType.pointerup 1 0 25) }]) :=
  (drag_trace sampleWorld 0 sampleListener (sampleEvent EventType.pointerdown 1 0 0)
    (sampleEvent EventType.pointermove 1 0 20) (sampleEvent EventType.pointerup 1 0 25)
    [] [sampleEvent EventType.pointermove 1 0 25]
    rfl rfl rfl
    (by intro m hm; cases hm)
    (by decide)
    (by intro m hm; rw [List.mem_singleton] at hm; subst hm; decide)
    (Or.inl rfl) rfl).1

/-! ## Two presses -/

theorem findListener_set {ls : List Listener} {target i : Nat} {l l' : Listener}
    (h : findListener ls target = some (i, l)) (hd : l'.DOMNode = l.DOMNode) :
    findListener (ls.set i l') target = some (i, l') := by
  induction ls generalizing i with
  | nil => simp [findListener] at h
  | cons a rest ih =>
    unfold findListener at h
    split at h
    · rename_i ha
      simp only [Option.some.injEq, Prod.mk.injEq] at h
      obtain ⟨rfl, rfl⟩ := h
      simp [findListener, hd, ha]
    · rename_i ha
      cases hr : findListener rest target with
      | none => simp [hr] at h
      | some il =>
        obtain ⟨j, l0⟩ := il
        simp only [hr, Option.map_some', Option.some.injEq, Prod.mk.injEq] at h
        obtain ⟨rfl, rfl⟩ := h
        simp [findListener, ha, ih hr]

/-- C7 (counterexample): on the sample listener, idle with no pointers, the
second of two presses with pointer ids `1` and `2` dispatches two gesture
events, the first being an end event of the idle state, so it does not dispatch
`multitouchstart` alone. -/
theorem second_press_dispatches_idle_end :
    (eventRegonizer (eventRegonizer sampleWorld (sampleEvent EventType.pointerdown 1 0 0)).1
        (sampleEvent EventType.pointerdown 2 5 5)).2 =
      [{ dispatcher := 0, type := GestureType.ending CurrentEvent.idle,
         payload := Payload.many [sampleEvent EventType.pointerdown 1 0 0] },
       { dispatcher := 0, type := GestureType.start CurrentEvent.multitouch,
         payload := Payload.many [sampleEvent EventType.pointerdown 1 0 0,
                                  sampleEvent EventType.pointerdown 2 5 5] }] ∧
    (eventRegonizer (eventRegonizer sampleWorld (sampleEvent EventType.pointerdown 1 0 0)).1
        (sampleEvent EventType.pointerdown 2 5 5)).2 ≠
      [{ dispatcher := 0, type := GestureType.start CurrentEvent.multitouch,
         payload := Payload.many [sampleEvent EventType.pointerdown 1 0 0,
                                  sampleEvent EventType.pointerdown 2 5 5] }] := by
  decide

/-- C7 (amended): on a listener that is `'idle'` with no pointers, the first of
two presses dispatches nothing and leaves it `'idle'` with the new pointer; the
second press dispatches exactly two gesture events, first the end event of
`'idle'` with the latest event of the first pointer, then `multitouchstart` with
the latest events of both pointers in press order, and the listener is then in
`'multitouch'` with both pointers. -/
theorem two_presses_trace (w : World) (i : Nat) (listener : Listener) (first second : Event)
    (hreg : findListener w.listeners first.target = some (i, listener))
    (hidle : listener.state = { currentEvent := CurrentEvent.idle, pointers := [] })
    (hfirst : first.type = EventType.pointerdown)
    (hsecond : second.type = EventType.pointerdown)
    (htarget : second.target = first.target) :
    (eventRegonizer w first).2 = [] ∧
    findListener (eventRegonizer w first).1.listeners first.target =
      some (i, { listener with
        state := { currentEvent := CurrentEvent.idle, pointers := [w.heap.length] } }) ∧
    (eventRegonizer (eventRegonizer w first).1 second).2 =
      [{ dispatcher := listener.eventDispatcher,
         type := GestureType.ending CurrentEvent.idle,
         payload := Payload.many [first] },
       { dispatcher := listener.eventDispatcher,
         type := GestureType.start CurrentEvent.multitouch,
         payload := Payload.many [first, second] }] ∧
    findListener (eventRegonizer (eventRegonizer w first).1 second).1.listeners first.target =
      some (i, { listener with
        state := { currentEvent := CurrentEvent.multitouch,
                   pointers := [w.heap.length, w.heap.length + 1] } }) := by
  have h0 : eventRegonizer w first =
      (onePointer w i listener CurrentEvent.idle first.pointerId
        { event := first, start := first, preEvents := [first], listener := i }, []) := by
    have := pointerdown_on_empty w first i listener hreg (by rw [hidle])
    simp only [eventRegonizer, hfirst, this, hidle]
  have hreg1 : findListener (w.listeners.set i { listener with
        state := { currentEvent := CurrentEvent.idle, pointers := [w.heap.length] } })
        second.target =
      some (i, { listener with
        state := { currentEvent := CurrentEvent.idle, pointers := [w.heap.length] } }) := by
    rw [htarget]
    exact findListener_set hreg rfl
  rw [h0]
  refine ⟨rfl, ?_, ?_, ?_⟩
  · rw [← htarget]
    exact hreg1
  · simp [eventRegonizer, hsecond, pointerdown, hreg1, getCurrentEvents, onePointer,
      List.getElem_append_right]
  · simp [eventRegonizer, hsecond, pointerdown, hreg1, setState, onePointer]
    exact findListener_set hreg rfl

theorem two_presses_trace_witness :
    (eventRegonizer (eventRegonizer sampleWorld (sampleEvent EventType.pointerdown 1 0 0)).1
        (sampleEvent EventType.pointerdown 2 5 5)).2 =
      [{ dispatcher := 0, type := GestureType.ending CurrentEvent.idle,
         payload := Payload.many [sampleEvent EventType.pointerdown 1 0 0] },
       { dispatcher := 0, type := GestureType.start CurrentEvent.multitouch,
         payload := Payload.many [sampleEvent EventType.pointerdown 1 0 0,
                                  sampleEvent EventType.pointerdown 2 5 5] }] :=
  (two_presses_trace sampleWorld 0 sampleListener (sampleEvent EventType.pointerdown 1 0 0)
    (sampleEvent EventType.pointerdown 2 5 5) rfl rfl rfl rfl rfl).2.2.1

/-! ## Release in a two-pointer multitouch -/

/-- C8: for a listener in `'multitouch'` holding exactly the two pointer records
`P` and `Q`, a release of `P` dispatches exactly one gesture event,
`multitouchend`, with the latest events of both pointers in sequence order (the
release event for `P`); afterwards the listener is in `'idle-drag'` with pointers
`[Q]`, the released pointer id is not in the pointer index, and `Q` has its
start equal to its latest event and `preEvents` holding just that event
(whether or not `Q` is in the pointer index). -/
theorem multitouch_release_to_one (w : World) (release : Event) (P Q : Nat) (p q : Pointer)
    (listener : Listener)
    (hrel : isRelease release)
    (hP : w.pointers.lookup release.pointerId = some P)
    (hp : w.heap[P]? = some p) (hq : w.heap[Q]? = some q)
    (hlis : w.listeners[p.listener]? = some listener)
    (hstate : listener.state.currentEvent = CurrentEvent.multitouch)
    (hptrs : listener.state.pointers = [P, Q] ∨ listener.state.pointers = [Q, P])
    (hne : P ≠ Q) :
    (eventRegonizer w release).2 =
      [{ dispatcher := listener.eventDispatcher,
         type := GestureType.ending CurrentEvent.multitouch,
         payload := Payload.many
           (listener.state.pointers.map (fun x => if x = P then release else q.event)) }] ∧
    (eventRegonizer w release).1.listeners[p.listener]? =
      some { listener with
        state := { currentEvent := CurrentEvent.idleDrag, pointers := [Q] } } ∧
    (eventRegonizer w release).1.pointers.lookup release.pointerId = none ∧
    (eventRegonizer w release).1.heap[Q]? =
      some { q with start := q.event, preEvents := [q.event] } := by
  have hl := lookupPointer_eq_some hP hp hlis
  have he : eventRegonizer w release = pointerrelease w release := by
    rcases hrel with h | h | h <;> simp only [eventRegonizer, h]
  have hlt : p.listener < w.listeners.length := (List.getElem?_eq_some.mp hlis).1
  have hPlt : P < w.heap.length := (List.getElem?_eq_some.mp hp).1
  have hQlt : Q < w.heap.length := (List.getElem?_eq_some.mp hq).1
  have hmem : P ∈ listener.state.pointers := by
    rcases hptrs with h | h <;> simp [h]
  have hs : splice listener.state.pointers (indexOf listener.state.pointers P) = [Q] := by
    rw [splice_indexOf_of_mem hmem]
    rcases hptrs with h | h
    · simp [h]
    · rw [h, List.erase_cons_tail (by simpa using hne.symm)]
      simp
  have hQ1 : (w.heap.set P { p with event := release })[Q]? = some q := by
    rw [List.getElem?_set_ne hne, hq]
  have hP1 : (w.heap.set P { p with event := release })[P]? =
      some { p with event := release } := List.getElem?_set_self hPlt
  have hev : getCurrentEvents (w.heap.set P { p with event := release }) listener.state =
      listener.state.pointers.map (fun x => if x = P then release else q.event) := by
    rcases hptrs with h | h <;> simp [getCurrentEvents, h, hQ1, hP1, hne.symm]
  rw [he]
  simp only [pointerrelease, hl, hstate, hs, if_true, hev, List.length_singleton]
  refine ⟨trivial, ?_, ?_, ?_⟩
  · simp only [setState]
    exact List.getElem?_set_self hlt
  · simp only [lookup_deletePointer, if_true]
  · simp only [resetPointersStart, List.foldl_cons, List.foldl_nil, List.getElem?_modify,
      hQ1, hne, if_false, if_true, Option.map_some', resetStart]
    rfl

theorem multitouch_release_to_one_witness :
    (eventRegonizer (run sampleWorld [Action.pointer (sampleEvent EventType.pointerdown 1 0 0),
        Action.pointer (sampleEvent EventType.pointerdown 2 5 5),
        Action.pointer (sampleEvent EventType.pointermove 2 9 9)]).1
      (sampleEvent EventType.pointerup 1 1 1)).1.heap[1]? =
      some { event := sampleEvent EventType.pointermove 2 9 9,
             start := sampleEvent EventType.pointermove 2 9 9,
             preEvents := [sampleEvent EventType.pointermove 2 9 9],
             listener := 0 } :=
  (multitouch_release_to_one
    (run sampleWorld [Action.pointer (sampleEvent EventType.pointerdown 1 0 0),
        Action.pointer (sampleEvent EventType.pointerdown 2 5 5),
        Action.pointer (sampleEvent EventType.pointermove 2 9 9)]).1
    (sampleEvent EventType.pointerup 1 1 1) 0 1
    { event := sampleEvent EventType.pointerdown 1 0 0,
      start := sampleEvent EventType.pointerdown 1 0 0,
      preEvents := [sampleEvent EventType.pointerdown 1 0 0], listener := 0 }
    { event := sampleEvent EventType.pointermove 2 9 9,
      start := sampleEvent EventType.pointerdown 2 5 5,
      preEvents := [sampleEvent EventType.pointerdown 2 5 5], listener := 0 }
    { DOMNode := 7, eventDispatcher := 0,
      state := { currentEvent := CurrentEvent.multitouch, pointers := [0, 1] } }
    (Or.inl rfl) (by decide) (by decide) (by decide) (by decide) rfl
    (Or.inl rfl) (by decide)).2.2.2

/-! ## The multitouch invariant -/

theorem lookupPointer_some {w : World} {pointerId : Int} {r : Nat} {pointer : Pointer}
    {listener : Listener} (h : lookupPointer w pointerId = some (r, pointer, listener)) :
    w.pointers.lookup pointerId = some r ∧ w.heap[r]? = some pointer ∧
      w.listeners[pointer.listener]? = some listener := by
  unfold lookupPointer at h
  cases h1 : w.pointers.lookup pointerId with
  | none => simp [h1] at h
  | some r' =>
    simp only [h1] at h
    cases h2 : w.heap[r']? with
    | none => simp [h2] at h
    | some p' =>
      simp only [h2] at h
      cases h3 : w.listeners[p'.listener]? with
      | none => simp [h3] at h
      | some l' =>
        simp only [h3, Option.some.injEq, Prod.mk.injEq] at h
        obtain ⟨rfl, rfl, rfl⟩ := h
        exact ⟨rfl, h2, h3⟩

theorem mem_of_getElem?_eq_some {ls : List Listener} {i : Nat} {l : Listener}
    (h : ls[i]? = some l) : l ∈ ls :=
  List.mem_iff_getElem?.mpr ⟨i, h⟩

theorem forall_mem_set {P : Listener → Prop} {ls : List Listener} {i : Nat} {l' : Listener}
    (h : ∀ l ∈ ls, P l) (h' : P l') : ∀ l ∈ ls.set i l', P l := by
  intro l hl
  rcases List.mem_or_eq_of_mem_set hl with hm | rfl
  · exact h l hm
  · exact h'

theorem multitouchInv_pointerdown (w : World) (event : Event)
    (h : ∀ l ∈ w.listeners, MultitouchInv l) :
    ∀ l ∈ (pointerdown w event).1.listeners, MultitouchInv l := by
  unfold pointerdown
  cases hf : findListener w.listeners event.target with
  | none => exact h
  | some il =>
    obtain ⟨i, listener⟩ := il
    have hg := h listener (mem_of_getElem?_eq_some (findListener_some hf).1)
    unfold MultitouchInv at hg
    simp only [setState, List.length_append, List.length_singleton]
    split
    · apply forall_mem_set h
      unfold MultitouchInv
      simp only [List.length_append, List.length_singleton, true_iff]
      assumption
    · apply forall_mem_set h
      unfold MultitouchInv
      simp only [List.length_append, List.length_singleton]
      constructor
      · intro hc
        have := hg.mp hc
        omega
      · intro hc
        omega

theorem multitouchInv_pointermove (w : World) (event : Event)
    (h : ∀ l ∈ w.listeners, MultitouchInv l) :
    ∀ l ∈ (pointermove w event).1.listeners, MultitouchInv l := by
  unfold pointermove
  cases hl : lookupPointer w event.pointerId with
  | none => exact h
  | some rpl =>
    obtain ⟨r, pointer, listener⟩ := rpl
    have hg := h listener (mem_of_getElem?_eq_some (lookupPointer_some hl).2.2)
    unfold MultitouchInv at hg
    simp only
    cases hc : listener.state.currentEvent <;> simp only [] <;> try exact h
    all_goals
      split
      · simp only [setState]
        apply forall_mem_set h
        unfold MultitouchInv
        simp only
        rw [hc] at hg
        constructor
        · intro hx
          split at hx <;> cases hx
        · intro hx
          exact absurd (hg.mpr hx) (by decide)
      · exact h

theorem multitouchInv_pointerrelease (w : World) (event : Event)
    (h : ∀ l ∈ w.listeners, MultitouchInv l) :
    ∀ l ∈ (pointerrelease w event).1.listeners, MultitouchInv l := by
  unfold pointerrelease
  cases hl : lookupPointer w event.pointerId with
  | none => exact h
  | some rpl =>
    obtain ⟨r, pointer, listener⟩ := rpl
    have hg := h listener (mem_of_getElem?_eq_some (lookupPointer_some hl).2.2)
    unfold MultitouchInv at hg
    have hlen := length_splice_indexOf listener.state.pointers r
    simp only
    cases hc : listener.state.currentEvent <;> simp only [] <;> rw [hc] at hg
    case multitouch =>
      have h2 := hg.mp rfl
      split
      · simp only [setState]
        apply forall_mem_set h
        unfold MultitouchInv
        simp only
        constructor
        · intro hx
          cases hx
        · intro hx
          omega
      · split
        · simp only [setState]
          apply forall_mem_set h
          unfold MultitouchInv
          simp only [hc, true_iff]
          omega
        · omega
    all_goals
      simp only [setState]
      apply forall_mem_set h
      unfold MultitouchInv
      simp only [hc]
      have : ¬ 2 ≤ listener.state.pointers.length := fun hx => absurd (hg.mpr hx) (by decide)
      constructor
      · intro hx
        cases hx
      · intro hx
        omega

theorem multitouchInv_step (w : World) (a : Action)
    (h : ∀ l ∈ w.listeners, MultitouchInv l) :
    ∀ l ∈ (step w a).1.listeners, MultitouchInv l := by
  cases a with
  | register DOMNode =>
    simp only [step, createListener]
    split
    · exact h
    · intro l hl
      simp only [List.mem_append, List.mem_singleton] at hl
      rcases hl with hl | rfl
      · exact h l hl
      · unfold MultitouchInv
        simp
  | pointer event =>
    simp only [step, eventRegonizer]
    split
    · exact multitouchInv_pointerdown w event h
    · exact multitouchInv_pointermove w event h
    · exact multitouchInv_pointerrelease w event h
    · exact multitouchInv_pointerrelease w event h
    · exact multitouchInv_pointerrelease w event h
    · exact h
  | blur =>
    intro l hl
    simp only [step, onblur, List.mem_map] at hl
    obtain ⟨l0, _, rfl⟩ := hl
    unfold MultitouchInv
    simp

theorem multitouchInv_run (acts : List Action) (w : World)
    (h : ∀ l ∈ w.listeners, MultitouchInv l) :
    ∀ l ∈ (run w acts).1.listeners, MultitouchInv l := by
  induction acts generalizing w with
  | nil => exact h
  | cons a rest ih => exact ih (step w a).1 (multitouchInv_step w a h)

/-- C1: in every module state reached from the initial one by registrations,
pointer events and blur events, a listener's current event is `'multitouch'`
exactly when it holds at least two pointers. -/
theorem multitouch_iff_two_pointers (acts : List Action) (l : Listener)
    (hl : l ∈ (run init acts).1.listeners) :
    l.state.currentEvent = CurrentEvent.multitouch ↔ 2 ≤ l.state.pointers.length :=
  multitouchInv_run acts init (by intro l hl; cases hl) l hl

theorem multitouch_iff_two_pointers_witness :
    ({ DOMNode := 7, eventDispatcher := 0,
       state := { currentEvent := CurrentEvent.multitouch, pointers := [0, 1] } } : Listener) ∈
      (run init [Action.register 7, Action.pointer (sampleEvent EventType.pointerdown 1 0 0),
        Action.pointer (sampleEvent EventType.pointerdown 2 5 5)]).1.listeners ∧
    (CurrentEvent.multitouch = CurrentEvent.multitouch ↔ 2 ≤ [0, 1].length) :=
  ⟨by decide,
    multitouch_iff_two_pointers
      [Action.register 7, Action.pointer (sampleEvent EventType.pointerdown 1 0 0),
        Action.pointer (sampleEvent EventType.pointerdown 2 5 5)]
      { DOMNode := 7, eventDispatcher := 0,
        state := { currentEvent := CurrentEvent.multitouch, pointers := [0, 1] } }
      (by decide)⟩

/-! ## The module state after each kind of event -/

theorem resetStart_resetStart (q : Pointer) : resetStart (resetStart q) = resetStart q := rfl

theorem getElem?_resetPointersStart (ptrs : List Nat) (c : CurrentEvent) (h : List Pointer)
    (x : Nat) :
    (resetPointersStart h { currentEvent := c, pointers := ptrs })[x]? =
      (h[x]?).map (fun q => if x ∈ ptrs then resetStart q else q) := by
  induction ptrs generalizing h with
  | nil => simp [resetPointersStart]
  | cons a rest ih =>
    have hstep : resetPointersStart h { currentEvent := c, pointers := a :: rest } =
        resetPointersStart (List.modify resetStart a h) { currentEvent := c, pointers := rest } := by
      simp [resetPointersStart]
    rw [hstep, ih, List.getElem?_modify]
    cases hx : h[x]? with
    | none => simp
    | some q =>
      by_cases h1 : a = x
      · subst h1
        by_cases h2 : a ∈ rest
        · simp [h2, resetStart_resetStart]
        · simp [h2]
      · have h1' : x ≠ a := fun h => h1 h.symm
        by_cases h2 : x ∈ rest
        · simp [h1, h1', h2]
        · simp [h1, h1', h2]

theorem getElem?_set_of_some {h : List Pointer} {r : Nat} {p : Pointer} (hp : h[r]? = some p)
    (g : Pointer → Pointer) (x : Nat) :
    (h.set r (g p))[x]? = (h[x]?).map (fun q => if x = r then g q else q) := by
  rw [List.getElem?_set]
  by_cases hx : r = x
  · subst hx
    have hlt : r < h.length := (List.getElem?_eq_some.mp hp).1
    simp [hp, hlt]
  · have hx' : x ≠ r := fun h => hx h.symm
    simp only [if_neg hx, hx', if_false]
    cases h[x]? <;> rfl

/-- The module state after a press on a registered target. -/
theorem pointerdown_state {w : World} {event : Event} {i : Nat} {listener : Listener}
    (hreg : findListener w.listeners event.target = some (i, listener)) :
    (pointerdown w event).1 =
      { w with
          heap := w.heap ++ [{ event := event, start := event, preEvents := [event],
                               listener := i }],
          pointers := setPointer w.pointers event.pointerId w.heap.length,
          listeners := w.listeners.set i
            { listener with state :=
              { currentEvent :=
                  (if 2 ≤ listener.state.pointers.length + 1 then CurrentEvent.multitouch
                   else listener.state.currentEvent),
                pointers := listener.state.pointers ++ [w.heap.length] } } } := by
  simp only [pointerdown, hreg, setState, List.length_append, List.length_singleton]
  split <;> rfl

/-- The module state after a move of an indexed pointer. -/
theorem pointermove_state {w : World} {event : Event} {r : Nat} {pointer : Pointer}
    {listener : Listener} (hl : lookupPointer w event.pointerId = some (r, pointer, listener)) :
    ∃ (p' : Pointer) (c' : CurrentEvent),
      p'.event = event ∧ p'.start = pointer.start ∧ p'.listener = pointer.listener ∧
      (c' = listener.state.currentEvent ∨
        (isIdling listener.state.currentEvent ∧ isDragging c' ∧
          crossed w.CONFIG.DRAG_THRESHOLD pointer.start event = true)) ∧
      (isIdling c' → crossed w.CONFIG.DRAG_THRESHOLD pointer.start event = false) ∧
      (pointermove w event).1 =
        { w with
            heap := w.heap.set r p',
            listeners := w.listeners.set pointer.listener
              { listener with state := { listener.state with currentEvent := c' } } } := by
  have hget := (lookupPointer_some hl).2.2
  have hsame : w.listeners.set pointer.listener
      { listener with state := { listener.state with
          currentEvent := listener.state.currentEvent } } = w.listeners := set_eq_self hget
  by_cases hs : isIdling listener.state.currentEvent
  · cases hc : crossed w.CONFIG.DRAG_THRESHOLD pointer.start event with
    | false =>
      refine ⟨{ pointer with event := event, preEvents := pointer.preEvents ++ [event] },
        listener.state.currentEvent, rfl, rfl, rfl, Or.inl rfl, fun _ => rfl, ?_⟩
      rw [pointermove_idle_within hl hs hc, hsame]
    | true =>
      refine ⟨{ pointer with event := event },
        if secondButton event then CurrentEvent.seconddrag else CurrentEvent.drag,
        rfl, rfl, rfl, Or.inr ⟨hs, ?_, rfl⟩, ?_, ?_⟩
      · unfold isDragging
        split <;> simp
      · intro hi
        unfold isIdling at hi
        split at hi <;> simp at hi
      · rw [pointermove_idle_crossed hl hs hc]
  · refine ⟨{ pointer with event := event }, listener.state.currentEvent,
      rfl, rfl, rfl, Or.inl rfl, fun hi => absurd hi hs, ?_⟩
    rw [hsame]
    unfold isIdling at hs
    cases hc : listener.state.currentEvent <;> simp [hc] at hs <;>
      simp [pointermove, hl, hc]

/-- The module state after a release of an indexed pointer. -/
theorem pointerrelease_state {w : World} {event : Event} {r : Nat} {pointer : Pointer}
    {listener : Listener} (hl : lookupPointer w event.pointerId = some (r, pointer, listener)) :
    ∃ (heap' : List Pointer) (f : Nat → Pointer → Pointer),
      (∀ x, heap'[x]? = (w.heap[x]?).map (f x)) ∧
      (∀ x q, (f x q).listener = q.listener) ∧
      (∀ x q, x ≠ r → x ∉ splice listener.state.pointers (indexOf listener.state.pointers r) →
        f x q = q) ∧
      (∀ x q, listener.state.currentEvent = CurrentEvent.multitouch →
        x ∈ splice listener.state.pointers (indexOf listener.state.pointers r) →
        (f x q).start = (f x q).event) ∧
      (pointerrelease w event).1 =
        { w with
            heap := heap',
            pointers := deletePointer w.pointers event.pointerId,
            listeners := w.listeners.set pointer.listener
              { listener with state :=
                { currentEvent := afterRelease listener.state.currentEvent
                    (splice listener.state.pointers (indexOf listener.state.pointers r)).length,
                  pointers :=
                    splice listener.state.pointers (indexOf listener.state.pointers r) } } } := by
  have hp := (lookupPointer_some hl).2.1
  have h1 := getElem?_set_of_some hp (fun q => { q with event := event })
  simp only at h1
  generalize hptrs : splice listener.state.pointers (indexOf listener.state.pointers r) = ptrs
  cases hc : listener.state.currentEvent
  case multitouch =>
    by_cases hlen : ptrs.length = 1
    · refine ⟨(pointerrelease w event).1.heap, fun x q =>
        (fun a => if r = x then
            { a with preEvents := (getCurrentEvents (w.heap.set r { pointer with event := event })
                { listener.state with pointers := ptrs }).take 1 } else a)
          ((fun q => if x ∈ ptrs then resetStart q else q)
            ((fun q => if x = r then { q with event := event } else q) q)),
        ?_, ?_, ?_, ?_, ?_⟩
      · intro x
        simp only [pointerrelease, hl, hc, hptrs, hlen, if_true]
        rw [List.getElem?_modify, getElem?_resetPointersStart, h1]
        cases w.heap[x]? <;> rfl
      · intro x q
        simp only
        split <;> split <;> split <;> rfl
      · intro x q hx1 hx2
        have hx3 : r ≠ x := fun h => hx1 h.symm
        simp only [hx1, hx2, hx3, if_false]
      · intro x q _ hx
        simp only [hx, if_true]
        split <;> split <;> rfl
      · simp only [pointerrelease, hl, hc, hptrs, hlen, if_true, setState, afterRelease]
    · have hh : (pointerrelease w event).1 =
          { w with
              heap := resetPointersStart (w.heap.set r { pointer with event := event })
                { listener.state with pointers := ptrs },
              pointers := deletePointer w.pointers event.pointerId,
              listeners := w.listeners.set pointer.listener
                { listener with state := { listener.state with pointers := ptrs } } } := by
        simp only [pointerrelease, hl, hc, hptrs, hlen, if_false, setState]
        split <;> rfl
      refine ⟨(pointerrelease w event).1.heap, fun x q =>
          ((fun q => if x ∈ ptrs then resetStart q else q)
            ((fun q => if x = r then { q with event := event } else q) q)),
        ?_, ?_, ?_, ?_, ?_⟩
      · intro x
        rw [hh]
        simp only
        rw [getElem?_resetPointersStart, h1]
        cases w.heap[x]? <;> rfl
      · intro x q
        simp only
        split <;> split <;> rfl
      · intro x q hx1 hx2
        simp only [hx1, hx2, if_false]
      · intro x q _ hx
        simp only [hx, if_true]
        split <;> rfl
      · rw [hh]
        simp only [afterRelease, hlen, if_false, hc]
  all_goals
    refine ⟨(pointerrelease w event).1.heap,
      fun x q => if x = r then { q with event := event } else q, ?_, ?_, ?_, ?_, ?_⟩
    · simp only [pointerrelease, hl, hc]
      exact h1
    · intro x q
      simp only
      split <;> rfl
    · intro x q hx1 _
      simp only [hx1, if_false]
    · intro x q hx
      cases hx
    · simp only [pointerrelease, hl, hc, hptrs, setState, afterRelease]

/-! ## Consistency of the registries is preserved -/

theorem getElem?_set_listener {ls : List Listener} {i : Nat} {l : Listener}
    (hget : ls[i]? = some l) (l' : Listener) (j : Nat) :
    (ls.set i l')[j]? = if j = i then some l' else ls[j]? := by
  rw [List.getElem?_set]
  have hlt : i < ls.length := (List.getElem?_eq_some.mp hget).1
  by_cases hj : j = i
  · subst hj
    simp [hlt]
  · have hj' : i ≠ j := fun h => hj h.symm
    simp [hj, hj']

theorem crossed_self (threshold : Int) (h : 0 ≤ threshold) (a b : Event)
    (hx : a.clientX = b.clientX) (hy : a.clientY = b.clientY) :
    crossed threshold a b = false := by
  rw [crossed_eq_false_iff]
  refine ⟨h, ?_⟩
  unfold distSq
  rw [hx, hy]
  simp only [sub_self, ne_eq, OfNat.ofNat_ne_zero, not_false_eq_true, zero_pow, add_zero]
  positivity

theorem consistent_init : Consistent init := by
  refine ⟨by decide, ?_, ?_, ?_, ?_, ?_, ?_⟩
  · intro l hl
    cases hl
  · intro k r hk
    cases hk
  · intro k1 k2 r hk
    cases hk
  all_goals
    intro i l hl
    simp [init] at hl

theorem consistent_pointerdown (w : World) (event : Event) (h : Consistent w) :
    Consistent (pointerdown w event).1 := by
  cases hf : findListener w.listeners event.target with
  | none =>
    simp only [pointerdown, hf]
    exact h
  | some il =>
    obtain ⟨i, listener⟩ := il
    have hget := (findListener_some hf).1
    have hm := multitouchInv_pointerdown w event h.multitouch
    rw [pointerdown_state hf] at hm ⊢
    have hold : ∀ (r : Nat) (p : Pointer), w.heap[r]? = some p →
        (w.heap ++
          [{ event := event, start := event, preEvents := [event], listener := i }])[r]? =
            some p := by
      intro r p hr
      rw [List.getElem?_append_left (List.getElem?_eq_some.mp hr).1]
      exact hr
    have hnew : (w.heap ++
          [{ event := event, start := event, preEvents := [event], listener := i }])[w.heap.length]? =
        some { event := event, start := event, preEvents := [event], listener := i } := by
      simp
    refine ⟨h.threshold, hm, ?_, ?_, ?_, ?_, ?_⟩
    · intro k r hk
      simp only [lookup_setPointer] at hk
      split at hk
      · simp only [Option.some.injEq] at hk
        subst hk
        exact ⟨_, _, hnew, (getElem?_set_listener hget _ _).trans (if_pos rfl), by simp⟩
      · obtain ⟨p, l, h1, h2, h3⟩ := h.indexed k r hk
        by_cases hpi : p.listener = i
        · refine ⟨p, _, hold r p h1, (getElem?_set_listener hget _ _).trans (if_pos hpi), ?_⟩
          rw [hpi, hget] at h2
          simp only [Option.some.injEq] at h2
          subst h2
          simp [h3]
        · exact ⟨p, l, hold r p h1,
            (getElem?_set_listener hget _ _).trans ((if_neg hpi).trans h2), h3⟩
    · intro k1 k2 r h1 h2
      simp only [lookup_setPointer] at h1 h2
      have hfresh : ∀ k, w.pointers.lookup k = some w.heap.length → False := by
        intro k hk
        obtain ⟨p, _, hp, _, _⟩ := h.indexed k _ hk
        have := (List.getElem?_eq_some.mp hp).1
        omega
      split at h1 <;> split at h2
      · subst_vars
        rfl
      · simp only [Option.some.injEq] at h1
        subst h1
        exact absurd h2 (fun hx => hfresh _ hx)
      · simp only [Option.some.injEq] at h2
        subst h2
        exact absurd h1 (fun hx => hfresh _ hx)
      · exact h.injective k1 k2 r h1 h2
    · intro j l hl r hr
      simp only [getElem?_set_listener hget] at hl
      split at hl
      · simp only [Option.some.injEq] at hl
        subst hl
        subst_vars
        simp only [List.mem_append, List.mem_singleton] at hr
        rcases hr with hr | rfl
        · obtain ⟨p, hp1, hp2⟩ := h.owned _ listener hget r hr
          exact ⟨p, hold r p hp1, hp2⟩
        · exact ⟨_, hnew, rfl⟩
      · obtain ⟨p, hp1, hp2⟩ := h.owned j l hl r hr
        exact ⟨p, hold r p hp1, hp2⟩
    · intro j l hl hd
      simp only [getElem?_set_listener hget] at hl
      split at hl
      · simp only [Option.some.injEq] at hl
        subst hl
        simp only [List.length_append, List.length_singleton] at hd ⊢
        split at hd
        · rcases hd with hd | hd <;> cases hd
        · omega
      · exact h.dragging j l hl hd
    · intro j l hl hidle r hr
      simp only [getElem?_set_listener hget] at hl
      split at hl
      · simp only [Option.some.injEq] at hl
        subst hl
        simp only at hr
        have hlen : listener.state.pointers = [] := by
          cases hps : listener.state.pointers with
          | nil => rfl
          | cons a rest =>
            rw [hps] at hr
            have := congrArg List.length hr
            simp at this
        rw [hlen] at hr
        simp only [List.nil_append, List.cons.injEq, and_true] at hr
        subst hr
        exact ⟨_, hnew, crossed_self _ h.threshold _ _ rfl rfl⟩
      · obtain ⟨p, hp1, hp2⟩ := h.resting j l hl hidle r hr
        exact ⟨p, hold r p hp1, hp2⟩

theorem indexed_mem {w : World} (h : Consistent w) {pointerId : Int} {r : Nat}
    {pointer : Pointer} {listener : Listener}
    (hl : lookupPointer w pointerId = some (r, pointer, listener)) :
    r ∈ listener.state.pointers := by
  obtain ⟨hlook, hp, hget⟩ := lookupPointer_some hl
  obtain ⟨p0, l0, h1, h2, h3⟩ := h.indexed _ _ hlook
  rw [hp] at h1
  simp only [Option.some.injEq] at h1
  subst h1
  rw [hget] at h2
  simp only [Option.some.injEq] at h2
  subst h2
  exact h3

theorem consistent_pointermove (w : World) (event : Event) (h : Consistent w) :
    Consistent (pointermove w event).1 := by
  cases hl : lookupPointer w event.pointerId with
  | none =>
    simp only [pointermove, hl]
    exact h
  | some rpl =>
    obtain ⟨r, pointer, listener⟩ := rpl
    obtain ⟨hlook, hp, hget⟩ := lookupPointer_some hl
    have hm := multitouchInv_pointermove w event h.multitouch
    have hmem := indexed_mem h hl
    obtain ⟨p', c', he, hs, hli, hc', hrest, heq⟩ := pointermove_state hl
    rw [heq] at hm ⊢
    have hrlt : r < w.heap.length := (List.getElem?_eq_some.mp hp).1
    have hself : (w.heap.set r p')[r]? = some p' := List.getElem?_set_self hrlt
    have hother : ∀ x, x ≠ r → (w.heap.set r p')[x]? = w.heap[x]? := by
      intro x hx
      exact List.getElem?_set_ne (fun h => hx h.symm)
    refine ⟨h.threshold, hm, ?_, h.injective, ?_, ?_, ?_⟩
    · intro k x hk
      obtain ⟨px, lx, h1, h2, h3⟩ := h.indexed k x hk
      by_cases hx : x = r
      · subst hx
        rw [hp] at h1
        simp only [Option.some.injEq] at h1
        subst h1
        rw [hget] at h2
        simp only [Option.some.injEq] at h2
        subst h2
        exact ⟨p', _, hself, (getElem?_set_listener hget _ _).trans (if_pos hli), h3⟩
      · by_cases hpi : px.listener = pointer.listener
        · rw [hpi, hget] at h2
          simp only [Option.some.injEq] at h2
          subst h2
          exact ⟨px, _, (hother x hx).trans h1,
            (getElem?_set_listener hget _ _).trans (if_pos hpi), h3⟩
        · exact ⟨px, lx, (hother x hx).trans h1,
            (getElem?_set_listener hget _ _).trans ((if_neg hpi).trans h2), h3⟩
    · intro j l hlj x hx
      have key : ∀ l0, w.listeners[j]? = some l0 → x ∈ l0.state.pointers →
          ∃ p : Pointer, (w.heap.set r p')[x]? = some p ∧ p.listener = j := by
        intro l0 hl0 hx0
        obtain ⟨p0, hp1, hp2⟩ := h.owned j l0 hl0 x hx0
        by_cases hxr : x = r
        · subst hxr
          rw [hp] at hp1
          simp only [Option.some.injEq] at hp1
          subst hp1
          exact ⟨p', hself, hli.trans hp2⟩
        · exact ⟨p0, (hother x hxr).trans hp1, hp2⟩
      rw [getElem?_set_listener hget] at hlj
      split at hlj
      · simp only [Option.some.injEq] at hlj
        subst hlj
        subst_vars
        exact key listener hget hx
      · exact key l hlj hx
    · intro j l hlj hd
      rw [getElem?_set_listener hget] at hlj
      split at hlj
      · simp only [Option.some.injEq] at hlj
        subst hlj
        simp only at hd ⊢
        rcases hc' with hc' | ⟨hidle, _, _⟩
        · rw [hc'] at hd
          exact h.dragging _ listener hget hd
        · have hmt := h.multitouch listener (mem_of_getElem?_eq_some hget)
          unfold MultitouchInv at hmt
          have hlen : 0 < listener.state.pointers.length := List.length_pos_of_mem hmem
          have hnot : ¬ 2 ≤ listener.state.pointers.length := by
            intro h2
            have := hmt.mpr h2
            rcases hidle with hi | hi <;> rw [hi] at this <;> cases this
          omega
      · exact h.dragging j l hlj hd
    · intro j l hlj hidle x hx
      rw [getElem?_set_listener hget] at hlj
      split at hlj
      · simp only [Option.some.injEq] at hlj
        subst hlj
        simp only at hidle hx
        rw [hx, List.mem_singleton] at hmem
        subst hmem
        refine ⟨p', hself, ?_⟩
        rw [hs, he]
        exact hrest hidle
      · rename_i hj
        obtain ⟨p0, hp1, hp2⟩ := h.resting j l hlj hidle x hx
        obtain ⟨p1, hp3, hp4⟩ := h.owned j l hlj x (by rw [hx]; exact List.mem_singleton_self x)
        have hxr : x ≠ r := by
          intro hxr
          subst hxr
          rw [hp] at hp3
          simp only [Option.some.injEq] at hp3
          subst hp3
          exact hj hp4.symm
        exact ⟨p0, (hother x hxr).trans hp1, hp2⟩

theorem consistent_pointerrelease (w : World) (event : Event) (h : Consistent w) :
    Consistent (pointerrelease w event).1 := by
  cases hl : lookupPointer w event.pointerId with
  | none =>
    simp only [pointerrelease, hl]
    exact h
  | some rpl =>
    obtain ⟨r, pointer, listener⟩ := rpl
    obtain ⟨hlook, hp, hget⟩ := lookupPointer_some hl
    have hm := multitouchInv_pointerrelease w event h.multitouch
    have hmem := indexed_mem h hl
    obtain ⟨heap', f, hheap, hfl, hfid, hfreset, heq⟩ := pointerrelease_state hl
    rw [splice_indexOf_of_mem hmem] at hfid hfreset heq
    rw [heq] at hm ⊢
    have hmt := h.multitouch listener (mem_of_getElem?_eq_some hget)
    unfold MultitouchInv at hmt
    have hget' : ∀ (x : Nat) (q : Pointer), w.heap[x]? = some q → heap'[x]? = some (f x q) := by
      intro x q hq
      rw [hheap, hq]
      rfl
    refine ⟨h.threshold, hm, ?_, ?_, ?_, ?_, ?_⟩
    · intro k x hk
      simp only [lookup_deletePointer] at hk
      split at hk
      · cases hk
      · rename_i hkne
        obtain ⟨px, lx, h1, h2, h3⟩ := h.indexed k x hk
        have hxr : x ≠ r := by
          intro hxr
          subst hxr
          exact hkne (h.injective k event.pointerId x hk hlook)
        by_cases hpi : px.listener = pointer.listener
        · rw [hpi, hget] at h2
          simp only [Option.some.injEq] at h2
          subst h2
          exact ⟨f x px, _, hget' x px h1,
            (getElem?_set_listener hget _ _).trans (if_pos ((hfl x px).trans hpi)),
            (List.mem_erase_of_ne hxr).mpr h3⟩
        · refine ⟨f x px, lx, hget' x px h1, ?_, h3⟩
          rw [hfl x px]
          exact (getElem?_set_listener hget _ _).trans ((if_neg hpi).trans h2)
    · intro k1 k2 x h1 h2
      simp only [lookup_deletePointer] at h1 h2
      split at h1
      · cases h1
      · split at h2
        · cases h2
        · exact h.injective k1 k2 x h1 h2
    · intro j l hlj x hx
      have key : ∀ l0, w.listeners[j]? = some l0 → x ∈ l0.state.pointers →
          ∃ p : Pointer, heap'[x]? = some p ∧ p.listener = j := by
        intro l0 hl0 hx0
        obtain ⟨p0, hp1, hp2⟩ := h.owned j l0 hl0 x hx0
        exact ⟨f x p0, hget' x p0 hp1, (hfl x p0).trans hp2⟩
      rw [getElem?_set_listener hget] at hlj
      split at hlj
      · simp only [Option.some.injEq] at hlj
        subst hlj
        subst_vars
        exact key listener hget (List.mem_of_mem_erase hx)
      · exact key l hlj hx
    · intro j l hlj hd
      rw [getElem?_set_listener hget] at hlj
      split at hlj
      · simp only [Option.some.injEq] at hlj
        subst hlj
        exfalso
        simp only [afterRelease, isDragging] at hd
        split at hd
        · split at hd <;> rcases hd with hd | hd <;> cases hd
        · rcases hd with hd | hd <;> cases hd
      · exact h.dragging j l hlj hd
    · intro j l hlj hidle x hx
      rw [getElem?_set_listener hget] at hlj
      split at hlj
      · simp only [Option.some.injEq] at hlj
        subst hlj
        simp only at hidle hx
        have hxm : x ∈ listener.state.pointers.erase r := by
          rw [hx]
          exact List.mem_singleton_self x
        by_cases hc : listener.state.currentEvent = CurrentEvent.multitouch
        · obtain ⟨p0, hp1, _⟩ := h.owned _ listener hget x (List.mem_of_mem_erase hxm)
          refine ⟨f x p0, hget' x p0 hp1, ?_⟩
          have hse := hfreset x p0 hc hxm
          rw [hse]
          exact crossed_self _ h.threshold _ _ rfl rfl
        · exfalso
          have hlen := List.length_erase_of_mem hmem
          rw [hx] at hlen
          simp only [List.length_singleton] at hlen
          have hnot : ¬ 2 ≤ listener.state.pointers.length := fun h2 => hc (hmt.mpr h2)
          omega
      · rename_i hj
        obtain ⟨p0, hp1, hp2⟩ := h.resting j l hlj hidle x hx
        obtain ⟨p1, hp3, hp4⟩ := h.owned j l hlj x (by rw [hx]; exact List.mem_singleton_self x)
        rw [hp1] at hp3
        simp only [Option.some.injEq] at hp3
        subst hp3
        have hxr : x ≠ r := by
          intro hxr
          subst hxr
          rw [hp] at hp1
          simp only [Option.some.injEq] at hp1
          subst hp1
          exact hj hp4.symm
        have hxe : x ∉ listener.state.pointers.erase r := by
          intro hxe
          obtain ⟨p2, hp5, hp6⟩ := h.owned _ listener hget x (List.mem_of_mem_erase hxe)
          rw [hp1] at hp5
          simp only [Option.some.injEq] at hp5
          subst hp5
          exact hj (hp4.symm.trans hp6)
        refine ⟨p0, ?_, hp2⟩
        rw [hget' x p0 hp1, hfid x p0 hxr hxe]

theorem consistent_step (w : World) (a : Action) (h : Consistent w) :
    Consistent (step w a).1 := by
  cases a with
  | register DOMNode =>
    simp only [step, createListener]
    split
    · exact h
    · have hold : ∀ (j : Nat) (l : Listener) (l0 : Listener),
          (w.listeners ++ [l0])[j]? = some l → w.listeners[j]? = some l ∨ l = l0 := by
        intro j l l0 hj
        by_cases hlt : j < w.listeners.length
        · rw [List.getElem?_append_left hlt] at hj
          exact Or.inl hj
        · rw [List.getElem?_append_right (by omega)] at hj
          right
          have := mem_of_getElem?_eq_some hj
          simpa using this
      have hm := multitouchInv_step w (Action.register DOMNode) h.multitouch
      simp only [step, createListener] at hm
      rename_i hfind
      simp only [hfind] at hm
      refine ⟨h.threshold, hm, ?_, h.injective, ?_, ?_, ?_⟩
      · intro k x hk
        obtain ⟨px, lx, h1, h2, h3⟩ := h.indexed k x hk
        refine ⟨px, lx, h1, ?_, h3⟩
        simp only
        rw [List.getElem?_append_left (List.getElem?_eq_some.mp h2).1]
        exact h2
      · intro j l hlj x hx
        rcases hold j l _ hlj with hj | rfl
        · exact h.owned j l hj x hx
        · cases hx
      · intro j l hlj hd
        rcases hold j l _ hlj with hj | rfl
        · exact h.dragging j l hj hd
        · rcases hd with hd | hd <;> cases hd
      · intro j l hlj hidle x hx
        rcases hold j l _ hlj with hj | rfl
        · exact h.resting j l hj hidle x hx
        · cases hx
  | pointer event =>
    simp only [step, eventRegonizer]
    split
    · exact consistent_pointerdown w event h
    · exact consistent_pointermove w event h
    · exact consistent_pointerrelease w event h
    · exact consistent_pointerrelease w event h
    · exact consistent_pointerrelease w event h
    · exact h
  | blur =>
    have hm := multitouchInv_step w Action.blur h.multitouch
    have hall : ∀ (j : Nat) (l : Listener), (onblur w).listeners[j]? = some l →
        l.state = { currentEvent := CurrentEvent.idle, pointers := [] } := by
      intro j l hj
      have := mem_of_getElem?_eq_some hj
      simp only [onblur, List.mem_map] at this
      obtain ⟨l0, _, rfl⟩ := this
      rfl
    refine ⟨h.threshold, hm, ?_, ?_, ?_, ?_, ?_⟩
    · intro k x hk
      cases hk
    · intro k1 k2 x hk
      cases hk
    · intro j l hlj x hx
      rw [hall j l hlj] at hx
      cases hx
    · intro j l hlj hd
      rw [hall j l hlj] at hd
      rcases hd with hd | hd <;> cases hd
    · intro j l hlj _ x hx
      rw [hall j l hlj] at hx
      cases hx

theorem consistent_run (acts : List Action) (w : World) (h : Consistent w) :
    Consistent (run w acts).1 := by
  induction acts generalizing w with
  | nil => exact h
  | cons a rest ih => exact ih (step w a).1 (consistent_step w a h)

/-! ## Dragging and the threshold -/

theorem not_isDragging_afterRelease (c : CurrentEvent) (n : Nat) :
    ¬ isDragging (afterRelease c n) := by
  intro hd
  simp only [afterRelease, isDragging] at hd
  split at hd
  · split at hd <;> rcases hd with hd | hd <;> cases hd
  · rcases hd with hd | hd <;> cases hd

theorem eq_singleton_of_mem {xs : List Nat} {r : Nat} (hmem : r ∈ xs) (hlen : ¬ 2 ≤ xs.length) :
    xs = [r] := by
  match xs, hmem, hlen with
  | [a], hmem, _ =>
    rw [List.mem_singleton] at hmem
    rw [hmem]
  | _ :: _ :: _, _, hlen =>
    simp at hlen

/-- A listener starts dragging only by a move of its single pointer beyond the
threshold. -/
theorem dragging_entered_by_move (w : World) (h : Consistent w) (a : Action) (j : Nat)
    (l l' : Listener) (hl : w.listeners[j]? = some l)
    (hl' : (step w a).1.listeners[j]? = some l')
    (hnot : ¬ isDragging l.state.currentEvent) (hd : isDragging l'.state.currentEvent) :
    ∃ (event : Event) (r : Nat) (p : Pointer),
      a = Action.pointer event ∧ event.type = EventType.pointermove ∧
      w.pointers.lookup event.pointerId = some r ∧ w.heap[r]? = some p ∧ p.listener = j ∧
      l.state.pointers = [r] ∧
      w.CONFIG.DRAG_THRESHOLD ^ 2 < distSq p.start event := by
  have hjlt : j < w.listeners.length := (List.getElem?_eq_some.mp hl).1
  have same : (step w a).1.listeners = w.listeners → False := by
    intro hs
    rw [hs, hl] at hl'
    simp only [Option.some.injEq] at hl'
    subst hl'
    exact hnot hd
  cases a with
  | register DOMNode =>
    exfalso
    simp only [step, createListener] at hl' same
    split at hl'
    · rename_i hf
      simp only [hf] at same
      exact same trivial
    · simp only at hl'
      rw [List.getElem?_append_left hjlt, hl] at hl'
      simp only [Option.some.injEq] at hl'
      subst hl'
      exact hnot hd
  | blur =>
    exfalso
    have := mem_of_getElem?_eq_some hl'
    simp only [step, onblur, List.mem_map] at this
    obtain ⟨l0, _, rfl⟩ := this
    rcases hd with hd | hd <;> cases hd
  | pointer event =>
    simp only [step] at hl' same
    cases ht : event.type
    case pointermove =>
      simp only [eventRegonizer, ht] at hl' same
      cases hlp : lookupPointer w event.pointerId with
      | none =>
        exfalso
        simp only [pointermove, hlp] at same
        exact same trivial
      | some rpl =>
        obtain ⟨r, pointer, listener⟩ := rpl
        obtain ⟨hlook, hp, hget⟩ := lookupPointer_some hlp
        have hmem := indexed_mem h hlp
        obtain ⟨p', c', _, _, _, hc', _, heq⟩ := pointermove_state hlp
        rw [heq] at hl'
        simp only at hl'
        rw [getElem?_set_listener hget] at hl'
        split at hl'
        · rename_i hj
          subst hj
          rw [hget] at hl
          simp only [Option.some.injEq] at hl hl'
          subst hl hl'
          simp only at hd
          rcases hc' with hc' | ⟨hidle, _, hcross⟩
          · rw [hc'] at hd
            exact absurd hd hnot
          · have hmt := h.multitouch listener (mem_of_getElem?_eq_some hget)
            unfold MultitouchInv at hmt
            have hnot2 : ¬ 2 ≤ listener.state.pointers.length := by
              intro h2
              have := hmt.mpr h2
              rcases hidle with hi | hi <;> rw [hi] at this <;> cases this
            refine ⟨event, r, pointer, rfl, ht, hlook, hp, rfl,
              eq_singleton_of_mem hmem hnot2, ?_⟩
            rcases (crossed_eq_true_iff _ _ _).mp hcross with hneg | hlt
            · exact absurd h.threshold (by omega)
            · exact hlt
        · rw [hl] at hl'
          simp only [Option.some.injEq] at hl'
          subst hl'
          exact absurd hd hnot
    case pointerdown =>
      exfalso
      simp only [eventRegonizer, ht] at hl' same
      cases hf : findListener w.listeners event.target with
      | none =>
        simp only [pointerdown, hf] at same
        exact same trivial
      | some il =>
        obtain ⟨i, listener⟩ := il
        have hget := (findListener_some hf).1
        rw [pointerdown_state hf] at hl'
        simp only at hl'
        rw [getElem?_set_listener hget] at hl'
        split at hl'
        · rename_i hj
          subst hj
          rw [hget] at hl
          simp only [Option.some.injEq] at hl hl'
          subst hl hl'
          simp only at hd
          split at hd
          · rcases hd with hd | hd <;> cases hd
          · exact hnot hd
        · rw [hl] at hl'
          simp only [Option.some.injEq] at hl'
          subst hl'
          exact hnot hd
    case contextmenu =>
      exfalso
      simp only [eventRegonizer, ht] at same
      exact same trivial
    all_goals
      exfalso
      simp only [eventRegonizer, ht] at hl' same
      cases hlp : lookupPointer w event.pointerId with
      | none =>
        simp only [pointerrelease, hlp] at same
        exact same trivial
      | some rpl =>
        obtain ⟨r, pointer, listener⟩ := rpl
        obtain ⟨hlook, hp, hget⟩ := lookupPointer_some hlp
        obtain ⟨heap', f, _, _, _, _, heq⟩ := pointerrelease_state hlp
        rw [heq] at hl'
        simp only at hl'
        rw [getElem?_set_listener hget] at hl'
        split at hl'
        · simp only [Option.some.injEq] at hl'
          subst hl'
          exact not_isDragging_afterRelease _ _ hd
        · rw [hl] at hl'
          simp only [Option.some.injEq] at hl'
          subst hl'
          exact hnot hd

/-- C2: in every module state reached from the initial one by registrations,
pointer events and blur events: a listener in `'drag'` or `'seconddrag'` holds
exactly one pointer; a listener in `'idle'` or `'idle-drag'` with one pointer has
that pointer's latest event within `DRAG_THRESHOLD` of its start event; and a
step takes a listener into `'drag'` or `'seconddrag'` only if it is a move of
the listener's single pointer whose distance from the pointer's start exceeds
`DRAG_THRESHOLD`. -/
theorem dragging_iff_one_pointer_crossed (acts : List Action) :
    (∀ l ∈ (run init acts).1.listeners,
      isDragging l.state.currentEvent → l.state.pointers.length = 1) ∧
    (∀ l ∈ (run init acts).1.listeners, isIdling l.state.currentEvent →
      ∀ r : Nat, l.state.pointers = [r] →
        ∃ p : Pointer, (run init acts).1.heap[r]? = some p ∧
          0 ≤ (run init acts).1.CONFIG.DRAG_THRESHOLD ∧
          distSq p.start p.event ≤ (run init acts).1.CONFIG.DRAG_THRESHOLD ^ 2) ∧
    (∀ (a : Action) (j : Nat) (l l' : Listener),
      (run init acts).1.listeners[j]? = some l →
      (step (run init acts).1 a).1.listeners[j]? = some l' →
      ¬ isDragging l.state.currentEvent → isDragging l'.state.currentEvent →
      ∃ (event : Event) (r : Nat) (p : Pointer),
        a = Action.pointer event ∧ event.type = EventType.pointermove ∧
        (run init acts).1.pointers.lookup event.pointerId = some r ∧
        (run init acts).1.heap[r]? = some p ∧ p.listener = j ∧
        l.state.pointers = [r] ∧
        (run init acts).1.CONFIG.DRAG_THRESHOLD ^ 2 < distSq p.start event) := by
  have h := consistent_run acts init consistent_init
  refine ⟨?_, ?_, ?_⟩
  · intro l hl hd
    obtain ⟨j, hj⟩ := List.mem_iff_getElem?.mp hl
    exact h.dragging j l hj hd
  · intro l hl hidle r hr
    obtain ⟨j, hj⟩ := List.mem_iff_getElem?.mp hl
    obtain ⟨p, hp1, hp2⟩ := h.resting j l hj hidle r hr
    exact ⟨p, hp1, (crossed_eq_false_iff _ _ _).mp hp2⟩
  · intro a j l l' hl hl' hnot hd
    exact dragging_entered_by_move _ h a j l l' hl hl' hnot hd

theorem dragging_iff_one_pointer_crossed_witness :
    ({ DOMNode := 7, eventDispatcher := 0,
       state := { currentEvent := CurrentEvent.drag, pointers := [0] } } : Listener) ∈
      (run init [Action.register 7, Action.pointer (sampleEvent EventType.pointerdown 1 0 0),
        Action.pointer (sampleEvent EventType.pointermove 1 0 20)]).1.listeners ∧
    [0].length = 1 :=
  ⟨by decide,
    (dragging_iff_one_pointer_crossed
      [Action.register 7, Action.pointer (sampleEvent EventType.pointerdown 1 0 0),
        Action.pointer (sampleEvent EventType.pointermove 1 0 20)]).1
      { DOMNode := 7, eventDispatcher := 0,
        state := { currentEvent := CurrentEvent.drag, pointers := [0] } }
      (by decide) (Or.inl rfl)⟩

/-! ## Repeated presses, configuration, end events, idle-drag release and the button guard -/

/-- C11 (code defect): a press whose pointer id is already indexed, on the
listener that holds the indexed record, stores the new record under that id and
leaves the old record, unchanged, in the listener's pointers: the old record is
then held by a listener without being indexed under its pointer id, and the
step removed it from the index only. -/
theorem repeated_press_orphans_record (w : World) (i : Nat) (listener : Listener)
    (event : Event) (old : Nat) (p : Pointer)
    (hreg : findListener w.listeners event.target = some (i, listener))
    (hpress : event.type = EventType.pointerdown)
    (hactive : w.pointers.lookup event.pointerId = some old)
    (hheap : w.heap[old]? = some p)
    (hheld : old ∈ listener.state.pointers) :
    (eventRegonizer w event).1.pointers.lookup event.pointerId = some w.heap.length ∧
    (eventRegonizer w event).1.pointers.lookup event.pointerId ≠
      w.pointers.lookup event.pointerId ∧
    (eventRegonizer w event).1.heap[old]? = some p ∧
    ∃ l' : Listener, (eventRegonizer w event).1.listeners[i]? = some l' ∧
      old ∈ l'.state.pointers ∧ w.heap.length ∈ l'.state.pointers := by
  obtain ⟨hget, _⟩ := findListener_some hreg
  have hi : i < w.listeners.length := (List.getElem?_eq_some.mp hget).1
  have hold : old < w.heap.length := (List.getElem?_eq_some.mp hheap).1
  have he : (eventRegonizer w event).1 = (pointerdown w event).1 := by
    simp only [eventRegonizer, hpress]
  rw [he, pointerdown_state hreg]
  refine ⟨?_, ?_, ?_, _, List.getElem?_set_self hi, ?_, ?_⟩
  · simp only [lookup_setPointer, if_true]
  · simp only [lookup_setPointer, if_true, hactive, ne_eq, Option.some.injEq]
    omega
  · simp only
    rw [List.getElem?_append_left hold]
    exact hheap
  · exact List.mem_append_left _ hheld
  · exact List.mem_append_right _ (List.mem_singleton_self _)

theorem repeated_press_orphans_record_witness :
    (eventRegonizer
      (run init [Action.register 7,
        Action.pointer (sampleEvent EventType.pointerdown 1 0 0)]).1
      (sampleEvent EventType.pointerdown 1 0 0)).1.pointers.lookup 1 = some 1 ∧
    (run init [Action.register 7, Action.pointer (sampleEvent EventType.pointerdown 1 0 0),
      Action.pointer (sampleEvent EventType.pointerdown 1 0 0)]).1.listeners.map
        (fun l => l.state.pointers) = [[0, 1]] ∧
    (run init [Action.register 7, Action.pointer (sampleEvent EventType.pointerdown 1 0 0),
      Action.pointer (sampleEvent EventType.pointerdown 1 0 0)]).1.pointers = [(1, 1)] :=
  ⟨(repeated_press_orphans_record
      (run init [Action.register 7,
        Action.pointer (sampleEvent EventType.pointerdown 1 0 0)]).1
      0
      { DOMNode := 7, eventDispatcher := 0,
        state := { currentEvent := CurrentEvent.idle, pointers := [0] } }
      (sampleEvent EventType.pointerdown 1 0 0) 0
      { event := sampleEvent EventType.pointerdown 1 0 0,
        start := sampleEvent EventType.pointerdown 1 0 0,
        preEvents := [sampleEvent EventType.pointerdown 1 0 0], listener := 0 }
      (by decide) rfl (by decide) (by decide) (by decide)).1,
    by decide, by decide⟩

/-- C12 (code defect): for every module state and every config object,
`setConfig` throws a `TypeError`: it never returns a module state, so no
configuration is ever stored. -/
theorem setConfig_throws (w : World) (config : ConfigKey → Option Int) :
    setConfig w config = Except.error JsError.typeError ∧
    ∀ w' : World, setConfig w config ≠ Except.ok w' := by
  have h : setConfig w config = Except.error JsError.typeError := by
    simp only [setConfig, configIterator]
  refine ⟨h, ?_⟩
  intro w' hw
  rw [h] at hw
  cases hw

/-- C13 (code defect): a press on a listener that holds one pointer and is in
`'drag'` first dispatches `dragend` with that pointer's latest event as the
single event, but on a listener in `'seconddrag'` it first dispatches
`seconddragend` carrying an `events` array; `multitouchstart` follows in both
cases. -/
theorem seconddrag_end_on_press_carries_events (w : World) (i : Nat) (listener : Listener)
    (event : Event) (r : Nat) (p : Pointer)
    (hreg : findListener w.listeners event.target = some (i, listener))
    (hpress : event.type = EventType.pointerdown)
    (hone : listener.state.pointers = [r])
    (hheap : w.heap[r]? = some p) :
    (listener.state.currentEvent = CurrentEvent.drag →
      (eventRegonizer w event).2 =
        [{ dispatcher := listener.eventDispatcher,
           type := GestureType.ending CurrentEvent.drag,
           payload := Payload.single p.event },
         { dispatcher := listener.eventDispatcher,
           type := GestureType.start CurrentEvent.multitouch,
           payload := Payload.many [p.event, event] }]) ∧
    (listener.state.currentEvent = CurrentEvent.seconddrag →
      (eventRegonizer w event).2 =
        [{ dispatcher := listener.eventDispatcher,
           type := GestureType.ending CurrentEvent.seconddrag,
           payload := Payload.many [p.event] },
         { dispatcher := listener.eventDispatcher,
           type := GestureType.start CurrentEvent.multitouch,
           payload := Payload.many [p.event, event] }]) := by
  have hlt : r < w.heap.length := (List.getElem?_eq_some.mp hheap).1
  have h1 : (w.heap ++
      [{ event := event, start := event, preEvents := [event], listener := i }])[r]? =
        some p := by
    rw [List.getElem?_append_left hlt]
    exact hheap
  constructor
  · intro hc
    simp [eventRegonizer, hpress, pointerdown, hreg, hone, hc, getCurrentEvents, hheap, h1]
  · intro hc
    simp [eventRegonizer, hpress, pointerdown, hreg, hone, hc, getCurrentEvents, hheap, h1]

theorem seconddrag_end_on_press_carries_events_witness :
    (eventRegonizer
      (run init [Action.register 7, Action.pointer (sampleEvent EventType.pointerdown 1 0 0),
        Action.pointer { type := EventType.pointermove, pointerId := 1, target := 7,
                         clientX := 0, clientY := 20, buttons := 2 }]).1
      (sampleEvent EventType.pointerdown 2 5 5)).2 =
      [{ dispatcher := 0, type := GestureType.ending CurrentEvent.seconddrag,
         payload := Payload.many [{ type := EventType.pointermove, pointerId := 1, target := 7,
                                    clientX := 0, clientY := 20, buttons := 2 }] },
       { dispatcher := 0, type := GestureType.start CurrentEvent.multitouch,
         payload := Payload.many [{ type := EventType.pointermove, pointerId := 1, target := 7,
                                    clientX := 0, clientY := 20, buttons := 2 },
                                  sampleEvent EventType.pointerdown 2 5 5] }] :=
  (seconddrag_end_on_press_carries_events
    (run init [Action.register 7, Action.pointer (sampleEvent EventType.pointerdown 1 0 0),
        Action.pointer { type := EventType.pointermove, pointerId := 1, target := 7,
                         clientX := 0, clientY := 20, buttons := 2 }]).1
    0
    { DOMNode := 7, eventDispatcher := 0,
      state := { currentEvent := CurrentEvent.seconddrag, pointers := [0] } }
    (sampleEvent EventType.pointerdown 2 5 5) 0
    { event := { type := EventType.pointermove, pointerId := 1, target := 7,
                 clientX := 0, clientY := 20, buttons := 2 },
      start := sampleEvent EventType.pointerdown 1 0 0,
      preEvents := [sampleEvent EventType.pointerdown 1 0 0], listener := 0 }
    (by decide) rfl rfl (by decide)).2 rfl

/-- C14: for a listener in `'idle-drag'` whose single pointer is indexed, a
release of that pointer dispatches nothing, leaves the listener `'idle'` with no
pointers and removes the pointer id from the pointer index. -/
theorem idle_drag_release_is_silent (w : World) (release : Event) (r : Nat) (pointer : Pointer)
    (listener : Listener)
    (hrel : isRelease release)
    (hlook : w.pointers.lookup release.pointerId = some r)
    (hheap : w.heap[r]? = some pointer)
    (hlis : w.listeners[pointer.listener]? = some listener)
    (hstate : listener.state = { currentEvent := CurrentEvent.idleDrag, pointers := [r] }) :
    (eventRegonizer w release).2 = [] ∧
    (eventRegonizer w release).1.listeners[pointer.listener]? =
      some { listener with state := { currentEvent := CurrentEvent.idle, pointers := [] } } ∧
    (eventRegonizer w release).1.pointers.lookup release.pointerId = none := by
  have hl := lookupPointer_eq_some hlook hheap hlis
  have he : eventRegonizer w release = pointerrelease w release := by
    rcases hrel with h | h | h <;> simp only [eventRegonizer, h]
  have hlt : pointer.listener < w.listeners.length := (List.getElem?_eq_some.mp hlis).1
  have hs : splice [r] (indexOf [r] r) = [] := by
    rw [splice_indexOf_of_mem (List.mem_singleton_self r)]
    simp
  rw [he]
  simp only [pointerrelease, hl, hstate, hs, setState]
  refine ⟨by simp, ?_, ?_⟩
  · exact List.getElem?_set_self hlt
  · simp only [lookup_deletePointer, if_true]

theorem idle_drag_release_is_silent_witness :
    (eventRegonizer
      (run init [Action.register 7, Action.pointer (sampleEvent EventType.pointerdown 1 0 0),
        Action.pointer (sampleEvent EventType.pointerdown 2 5 5),
        Action.pointer (sampleEvent EventType.pointerup 1 1 1)]).1
      (sampleEvent EventType.pointerup 2 6 6)).2 = [] :=
  (idle_drag_release_is_silent
    (run init [Action.register 7, Action.pointer (sampleEvent EventType.pointerdown 1 0 0),
        Action.pointer (sampleEvent EventType.pointerdown 2 5 5),
        Action.pointer (sampleEvent EventType.pointerup 1 1 1)]).1
    (sampleEvent EventType.pointerup 2 6 6) 1
    { event := sampleEvent EventType.pointerdown 2 5 5,
      start := sampleEvent EventType.pointerdown 2 5 5,
      preEvents := [sampleEvent EventType.pointerdown 2 5 5], listener := 0 }
    { DOMNode := 7, eventDispatcher := 0,
      state := { currentEvent := CurrentEvent.idleDrag, pointers := [1] } }
    (Or.inl rfl) (by decide) (by decide) (by decide) rfl).1

theorem secondButton_eq_testBit (event : Event) :
    secondButton event = Nat.testBit event.buttons 1 := by
  unfold secondButton
  have h := Nat.and_two_pow event.buttons 1
  simp only [pow_one] at h
  rw [h]
  cases Nat.testBit event.buttons 1 <;> simp

/-- C15: for a listener in `'idle'` or `'idle-drag'` and a move of its indexed
pointer farther than `DRAG_THRESHOLD` from the pointer's start: if the move's
button mask has the bit of value `2` set, the current event becomes
`'seconddrag'` and exactly `seconddragstart` is dispatched; if the bit is clear,
the current event becomes `'drag'` and exactly `dragstart` is dispatched. -/
theorem button_guard_selects_drag_kind (w : World) (event : Event) (r : Nat) (pointer : Pointer)
    (listener : Listener)
    (hmove : event.type = EventType.pointermove)
    (hlook : w.pointers.lookup event.pointerId = some r)
    (hheap : w.heap[r]? = some pointer)
    (hlis : w.listeners[pointer.listener]? = some listener)
    (hstate : isIdling listener.state.currentEvent)
    (hcross : w.CONFIG.DRAG_THRESHOLD < 0 ∨
      w.CONFIG.DRAG_THRESHOLD ^ 2 < distSq pointer.start event) :
    (Nat.testBit event.buttons 1 = true →
      eventRegonizer w event =
        ({ w with
            heap := w.heap.set r { pointer with event := event },
            listeners := w.listeners.set pointer.listener
              { listener with state :=
                { listener.state with currentEvent := CurrentEvent.seconddrag } } },
          [{ dispatcher := listener.eventDispatcher,
             type := GestureType.start CurrentEvent.seconddrag,
             payload := Payload.withPre pointer.start pointer.preEvents }])) ∧
    (Nat.testBit event.buttons 1 = false →
      eventRegonizer w event =
        ({ w with
            heap := w.heap.set r { pointer with event := event },
            listeners := w.listeners.set pointer.listener
              { listener with state :=
                { listener.state with currentEvent := CurrentEvent.drag } } },
          [{ dispatcher := listener.eventDispatcher,
             type := GestureType.start CurrentEvent.drag,
             payload := Payload.withPre pointer.start pointer.preEvents }])) := by
  have hl := lookupPointer_eq_some hlook hheap hlis
  have he : eventRegonizer w event = pointermove w event := by
    simp only [eventRegonizer, hmove]
  have hc : crossed w.CONFIG.DRAG_THRESHOLD pointer.start event = true :=
    (crossed_eq_true_iff _ _ _).mpr hcross
  rw [he, pointermove_idle_crossed hl hstate hc, secondButton_eq_testBit]
  constructor
  · intro hb
    simp only [hb, if_true]
  · intro hb
    simp only [hb, Bool.false_eq_true, if_false]

theorem button_guard_selects_drag_kind_witness :
    (eventRegonizer (eventRegonizer sampleWorld (sampleEvent EventType.pointerdown 1 0 0)).1
      { type := EventType.pointermove, pointerId := 1, target := 7,
        clientX := 0, clientY := 20, buttons := 2 }).2 =
      [{ dispatcher := 0, type := GestureType.start CurrentEvent.seconddrag,
         payload := Payload.withPre (sampleEvent EventType.pointerdown 1 0 0)
           [sampleEvent EventType.pointerdown 1 0 0] }] :=
  congrArg Prod.snd
    ((button_guard_selects_drag_kind
      (eventRegonizer sampleWorld (sampleEvent EventType.pointerdown 1 0 0)).1
      { type := EventType.pointermove, pointerId := 1, target := 7,
        clientX := 0, clientY := 20, buttons := 2 } 0
      { event := sampleEvent EventType.pointerdown 1 0 0,
        start := sampleEvent EventType.pointerdown 1 0 0,
        preEvents := [sampleEvent EventType.pointerdown 1 0 0], listener := 0 }
      { DOMNode := 7, eventDispatcher := 0,
        state := { currentEvent := CurrentEvent.idle, pointers := [0] } }
      rfl (by decide) (by decide) (by decide) (Or.inl rfl) (by decide)).1 (by decide))

/-! ## A press on a listener that already holds a pointer -/

theorem getElem?_append_of_some {h : List Pointer} {x : Nat} {q : Pointer}
    (hq : h[x]? = some q) (rest : List Pointer) : (h ++ rest)[x]? = some q := by
  rw [List.getElem?_append_left (List.getElem?_eq_some.mp hq).1]
  exact hq

/-- C17 (counterexample): the sample listener, left in `'idle-drag'` with one
pointer after two presses and one release, enters `'multitouch'` on a further
press and dispatches `multitouchstart`. -/
theorem idle_drag_press_enters_multitouch :
    (run init [Action.register 7, Action.pointer (sampleEvent EventType.pointerdown 1 0 0),
      Action.pointer (sampleEvent EventType.pointerdown 2 5 5),
      Action.pointer (sampleEvent EventType.pointerup 2 5 5)]).1.listeners.map
        (fun l => l.state) = [{ currentEvent := CurrentEvent.idleDrag, pointers := [0] }] ∧
    (eventRegonizer
      (run init [Action.register 7, Action.pointer (sampleEvent EventType.pointerdown 1 0 0),
        Action.pointer (sampleEvent EventType.pointerdown 2 5 5),
        Action.pointer (sampleEvent EventType.pointerup 2 5 5)]).1
      (sampleEvent EventType.pointerdown 3 6 6)).1.listeners.map (fun l => l.state) =
      [{ currentEvent := CurrentEvent.multitouch, pointers := [0, 2] }] ∧
    (eventRegonizer
      (run init [Action.register 7, Action.pointer (sampleEvent EventType.pointerdown 1 0 0),
        Action.pointer (sampleEvent EventType.pointerdown 2 5 5),
        Action.pointer (sampleEvent EventType.pointerup 2 5 5)]).1
      (sampleEvent EventType.pointerdown 3 6 6)).2 =
      [{ dispatcher := 0, type := GestureType.ending CurrentEvent.idleDrag,
         payload := Payload.many [sampleEvent EventType.pointerdown 1 0 0] },
       { dispatcher := 0, type := GestureType.start CurrentEvent.multitouch,
         payload := Payload.many [sampleEvent EventType.pointerdown 1 0 0,
                                  sampleEvent EventType.pointerdown 3 6 6] }] := by
  decide

/-- C17 (amended): for a listener in `'idle'` or in `'idle-drag'` holding one
pointer, a further press on it enters `'multitouch'` in both states alike: it
dispatches the end event of the prior state with the latest event of the
existing pointer, then `multitouchstart` with the latest events of both
pointers, and the listener is then in `'multitouch'` with both pointers. -/
theorem press_on_one_pointer_enters_multitouch (w : World) (i : Nat) (listener : Listener)
    (event : Event) (r : Nat) (p : Pointer)
    (hreg : findListener w.listeners event.target = some (i, listener))
    (hpress : event.type = EventType.pointerdown)
    (hstate : isIdling listener.state.currentEvent)
    (hone : listener.state.pointers = [r])
    (hheap : w.heap[r]? = some p) :
    (eventRegonizer w event).2 =
      [{ dispatcher := listener.eventDispatcher,
         type := GestureType.ending listener.state.currentEvent,
         payload := Payload.many [p.event] },
       { dispatcher := listener.eventDispatcher,
         type := GestureType.start CurrentEvent.multitouch,
         payload := Payload.many [p.event, event] }] ∧
    (eventRegonizer w event).1.listeners[i]? =
      some { listener with
        state := { currentEvent := CurrentEvent.multitouch,
                   pointers := [r, w.heap.length] } } := by
  obtain ⟨hget, _⟩ := findListener_some hreg
  have hi : i < w.listeners.length := (List.getElem?_eq_some.mp hget).1
  have hnd : listener.state.currentEvent ≠ CurrentEvent.drag := by
    rcases hstate with h | h <;> rw [h] <;> decide
  have h1 : (w.heap ++
      [{ event := event, start := event, preEvents := [event], listener := i }])[r]? =
        some p := getElem?_append_of_some hheap _
  constructor
  · simp [eventRegonizer, hpress, pointerdown, hreg, hone, hnd, getCurrentEvents, hheap, h1]
  · simp only [eventRegonizer, hpress, pointerdown, hreg, hone, setState]
    simp only [List.length_append, List.length_singleton, Nat.reduceAdd, le_refl, if_true,
      List.singleton_append]
    exact List.getElem?_set_self hi

theorem press_on_one_pointer_enters_multitouch_witness :
    (eventRegonizer
      (run init [Action.register 7, Action.pointer (sampleEvent EventType.pointerdown 1 0 0),
        Action.pointer (sampleEvent EventType.pointerdown 2 5 5),
        Action.pointer (sampleEvent EventType.pointerup 2 5 5)]).1
      (sampleEvent EventType.pointerdown 3 6 6)).1.listeners[0]? =
      some { DOMNode := 7, eventDispatcher := 0,
             state := { currentEvent := CurrentEvent.multitouch, pointers := [0, 2] } } :=
  (press_on_one_pointer_enters_multitouch
    (run init [Action.register 7, Action.pointer (sampleEvent EventType.pointerdown 1 0 0),
        Action.pointer (sampleEvent EventType.pointerdown 2 5 5),
        Action.pointer (sampleEvent EventType.pointerup 2 5 5)]).1
    0
    { DOMNode := 7, eventDispatcher := 0,
      state := { currentEvent := CurrentEvent.idleDrag, pointers := [0] } }
    (sampleEvent EventType.pointerdown 3 6 6) 0
    { event := sampleEvent EventType.pointerdown 1 0 0,
      start := sampleEvent EventType.pointerdown 1 0 0,
      preEvents := [sampleEvent EventType.pointerdown 1 0 0], listener := 0 }
    (by decide) rfl (Or.inr rfl) rfl (by decide)).2

/-- C18 (counterexample): on the sample listener, after a press at `(0,0)` and a
move to `(3,4)`, a second press leaves the first pointer's start at the press
event although its latest event is the move, and leaves its `preEvents` at the
press followed by the move. -/
theorem press_keeps_reference_positions :
    (eventRegonizer
      (run init [Action.register 7, Action.pointer (sampleEvent EventType.pointerdown 1 0 0),
        Action.pointer (sampleEvent EventType.pointermove 1 3 4)]).1
      (sampleEvent EventType.pointerdown 2 5 5)).1.heap[0]? =
      some { event := sampleEvent EventType.pointermove 1 3 4,
             start := sampleEvent EventType.pointerdown 1 0 0,
             preEvents := [sampleEvent EventType.pointerdown 1 0 0,
                           sampleEvent EventType.pointermove 1 3 4],
             listener := 0 } ∧
    sampleEvent EventType.pointerdown 1 0 0 ≠ sampleEvent EventType.pointermove 1 3 4 := by
  decide

/-- C18 (amended): a press on a registered target leaves every pointer record
that existed before exactly as it was (start, latest event and `preEvents`
unchanged) and allocates the new record with start and latest event equal to
the press event and `preEvents` holding just the press event. -/
theorem press_changes_no_existing_record (w : World) (i : Nat) (listener : Listener)
    (event : Event)
    (hreg : findListener w.listeners event.target = some (i, listener))
    (hpress : event.type = EventType.pointerdown) :
    (∀ (x : Nat) (q : Pointer), w.heap[x]? = some q →
      (eventRegonizer w event).1.heap[x]? = some q) ∧
    (eventRegonizer w event).1.heap[w.heap.length]? =
      some { event := event, start := event, preEvents := [event], listener := i } ∧
    (eventRegonizer w event).1.listeners[i]? =
      some { listener with state :=
        { currentEvent :=
            (if 2 ≤ listener.state.pointers.length + 1 then CurrentEvent.multitouch
             else listener.state.currentEvent),
          pointers := listener.state.pointers ++ [w.heap.length] } } := by
  obtain ⟨hget, _⟩ := findListener_some hreg
  have hi : i < w.listeners.length := (List.getElem?_eq_some.mp hget).1
  have he : (eventRegonizer w event).1 = (pointerdown w event).1 := by
    simp only [eventRegonizer, hpress]
  rw [he, pointerdown_state hreg]
  refine ⟨?_, ?_, ?_⟩
  · intro x q hq
    exact getElem?_append_of_some hq _
  · simp
  · exact List.getElem?_set_self hi

theorem press_changes_no_existing_record_witness :
    (eventRegonizer
      (run init [Action.register 7, Action.pointer (sampleEvent EventType.pointerdown 1 0 0),
        Action.pointer (sampleEvent EventType.pointermove 1 3 4)]).1
      (sampleEvent EventType.pointerdown 2 5 5)).1.heap[0]? =
      some { event := sampleEvent EventType.pointermove 1 3 4,
             start := sampleEvent EventType.pointerdown 1 0 0,
             preEvents := [sampleEvent EventType.pointerdown 1 0 0,
                           sampleEvent EventType.pointermove 1 3 4],
             listener := 0 } :=
  (press_changes_no_existing_record
    (run init [Action.register 7, Action.pointer (sampleEvent EventType.pointerdown 1 0 0),
        Action.pointer (sampleEvent EventType.pointermove 1 3 4)]).1
    0
    { DOMNode := 7, eventDispatcher := 0,
      state := { currentEvent := CurrentEvent.idle, pointers := [0] } }
    (sampleEvent EventType.pointerdown 2 5 5) (by decide) rfl).1 0
    { event := sampleEvent EventType.pointermove 1 3 4,
      start := sampleEvent EventType.pointerdown 1 0 0,
      preEvents := [sampleEvent EventType.pointerdown 1 0 0,
                    sampleEvent EventType.pointermove 1 3 4],
      listener := 0 }
    (by decide)

/-! ## Release in a multitouch of three or more pointers -/

theorem getCurrentEvents_eq_map (heap : List Pointer) (state : GestureState) (f : Nat → Event)
    (h : ∀ x ∈ state.pointers, (heap[x]?).map (fun pointer => pointer.event) = some (f x)) :
    getCurrentEvents heap state = state.pointers.map f := by
  unfold getCurrentEvents
  generalize state.pointers = ptrs at h
  induction ptrs with
  | nil => rfl
  | cons a rest ih =>
    rw [List.filterMap_cons, h a (List.mem_cons_self _ _), List.map_cons,
      ih (fun x hx => h x (List.mem_cons_of_mem _ hx))]

/-- C16: for a listener in `'multitouch'` holding at least three distinct pointer
records, a release of one of them, `P`, dispatches exactly two gesture events:
`multitouchend` with the latest events of all pointers in order (the release
event for `P`), then `multitouchstart` with the latest events of the remaining
pointers in their order; the listener stays in `'multitouch'` with the remaining
pointers, the released pointer id leaves the pointer index, and every remaining
pointer has its start equal to its latest event and `preEvents` holding just
that event. -/
theorem multitouch_release_to_many (w : World) (release : Event) (P : Nat) (p : Pointer)
    (listener : Listener) (recs : Nat → Pointer)
    (hrel : isRelease release)
    (hP : w.pointers.lookup release.pointerId = some P)
    (hp : w.heap[P]? = some p)
    (hlis : w.listeners[p.listener]? = some listener)
    (hstate : listener.state.currentEvent = CurrentEvent.multitouch)
    (hmem : P ∈ listener.state.pointers)
    (hnodup : listener.state.pointers.Nodup)
    (hlen : 3 ≤ listener.state.pointers.length)
    (hrecs : ∀ x ∈ listener.state.pointers, w.heap[x]? = some (recs x)) :
    (eventRegonizer w release).2 =
      [{ dispatcher := listener.eventDispatcher,
         type := GestureType.ending CurrentEvent.multitouch,
         payload := Payload.many
           (listener.state.pointers.map (fun x => if x = P then release else (recs x).event)) },
       { dispatcher := listener.eventDispatcher,
         type := GestureType.start CurrentEvent.multitouch,
         payload := Payload.many
           ((listener.state.pointers.erase P).map (fun x => (recs x).event)) }] ∧
    (eventRegonizer w release).1.listeners[p.listener]? =
      some { listener with
        state := { currentEvent := CurrentEvent.multitouch,
                   pointers := listener.state.pointers.erase P } } ∧
    (eventRegonizer w release).1.pointers.lookup release.pointerId = none ∧
    (∀ x ∈ listener.state.pointers.erase P,
      (eventRegonizer w release).1.heap[x]? =
        some { recs x with start := (recs x).event, preEvents := [(recs x).event] }) := by
  have hl := lookupPointer_eq_some hP hp hlis
  have he : eventRegonizer w release = pointerrelease w release := by
    rcases hrel with h | h | h <;> simp only [eventRegonizer, h]
  have hlt : p.listener < w.listeners.length := (List.getElem?_eq_some.mp hlis).1
  have hs : splice listener.state.pointers (indexOf listener.state.pointers P) =
      listener.state.pointers.erase P := splice_indexOf_of_mem hmem
  have hlen' : (listener.state.pointers.erase P).length = listener.state.pointers.length - 1 :=
    List.length_erase_of_mem hmem
  have hne1 : ¬ (listener.state.pointers.erase P).length = 1 := by omega
  have hgt : 1 < (listener.state.pointers.erase P).length := by omega
  have hnotin : ∀ x ∈ listener.state.pointers.erase P, x ≠ P := by
    intro x hx hxp
    subst hxp
    exact (List.Nodup.not_mem_erase hnodup) hx
  have h1 := getElem?_set_of_some hp (fun q => { q with event := release })
  simp only at h1
  have hev1 : getCurrentEvents (w.heap.set P { p with event := release }) listener.state =
      listener.state.pointers.map (fun x => if x = P then release else (recs x).event) := by
    apply getCurrentEvents_eq_map
    intro x hx
    rw [h1, hrecs x hx]
    by_cases hxp : x = P <;> simp [hxp]
  have hev2 : ∀ c : CurrentEvent, getCurrentEvents (w.heap.set P { p with event := release })
      { currentEvent := c, pointers := listener.state.pointers.erase P } =
      (listener.state.pointers.erase P).map (fun x => (recs x).event) := by
    intro c
    apply getCurrentEvents_eq_map
    intro x hx
    have hx' : x ∈ listener.state.pointers := List.mem_of_mem_erase hx
    rw [h1, hrecs x hx']
    simp [hnotin x hx]
  rw [he]
  simp only [pointerrelease, hl, hstate, hs, if_true, hev1, hev2, hne1, hgt, if_false, setState]
  refine ⟨by simp, ?_, ?_, ?_⟩
  · exact List.getElem?_set_self hlt
  · simp only [lookup_deletePointer, if_true]
  · intro x hx
    have hx' : x ∈ listener.state.pointers := List.mem_of_mem_erase hx
    rw [getElem?_resetPointersStart, h1, hrecs x hx']
    simp [hx, hnotin x hx, resetStart]

theorem multitouch_release_to_many_witness :
    (eventRegonizer
      (run init [Action.register 7, Action.pointer (sampleEvent EventType.pointerdown 1 0 0),
        Action.pointer (sampleEvent EventType.pointerdown 2 5 5),
        Action.pointer (sampleEvent EventType.pointerdown 3 9 9),
        Action.pointer (sampleEvent EventType.pointermove 3 8 8)]).1
      (sampleEvent EventType.pointerup 2 6 6)).1.listeners[0]? =
      some { DOMNode := 7, eventDispatcher := 0,
             state := { currentEvent := CurrentEvent.multitouch, pointers := [0, 2] } } :=
  (multitouch_release_to_many
    (run init [Action.register 7, Action.pointer (sampleEvent EventType.pointerdown 1 0 0),
        Action.pointer (sampleEvent EventType.pointerdown 2 5 5),
        Action.pointer (sampleEvent EventType.pointerdown 3 9 9),
        Action.pointer (sampleEvent EventType.pointermove 3 8 8)]).1
    (sampleEvent EventType.pointerup 2 6 6) 1
    { event := sampleEvent EventType.pointerdown 2 5 5,
      start := sampleEvent EventType.pointerdown 2 5 5,
      preEvents := [sampleEvent EventType.pointerdown 2 5 5], listener := 0 }
    { DOMNode := 7, eventDispatcher := 0,
      state := { currentEvent := CurrentEvent.multitouch, pointers := [0, 1, 2] } }
    (fun x => if x = 0 then
        ({ event := sampleEvent EventType.pointerdown 1 0 0,
           start := sampleEvent EventType.pointerdown 1 0 0,
           preEvents := [sampleEvent EventType.pointerdown 1 0 0],
           listener := 0 } : Pointer)
      else if x = 1 then
        { event := sampleEvent EventType.pointerdown 2 5 5,
          start := sampleEvent EventType.pointerdown 2 5 5,
          preEvents := [sampleEvent EventType.pointerdown 2 5 5], listener := 0 }
      else
        { event := sampleEvent EventType.pointermove 3 8 8,
          start := sampleEvent EventType.pointerdown 3 9 9,
          preEvents := [sampleEvent EventType.pointerdown 3 9 9],
          listener := 0 })
    (Or.inl rfl) (by decide) (by decide) (by decide) rfl (by decide) (by decide) (by decide)
    (by decide)).2.1

/-! ## Release removes the released record; taps ignore the release position -/

theorem nodup_splice (xs : List Nat) (start : Int) (h : xs.Nodup) : (splice xs start).Nodup := by
  unfold splice
  split <;> exact List.Nodup.eraseIdx _ h

/-- No listener holds a pointer record twice: preserved by every step of a
consistent module state. -/
theorem nodup_step (w : World) (a : Action) (h : Consistent w)
    (hn : ∀ l ∈ w.listeners, l.state.pointers.Nodup) :
    ∀ l ∈ (step w a).1.listeners, l.state.pointers.Nodup := by
  cases a with
  | register DOMNode =>
    simp only [step, createListener]
    split
    · exact hn
    · intro l hl
      simp only [List.mem_append, List.mem_singleton] at hl
      rcases hl with hl | rfl
      · exact hn l hl
      · exact List.nodup_nil
  | blur =>
    intro l hl
    simp only [step, onblur, List.mem_map] at hl
    obtain ⟨l0, _, rfl⟩ := hl
    exact List.nodup_nil
  | pointer event =>
    simp only [step]
    cases ht : event.type
    case pointerdown =>
      simp only [eventRegonizer, ht]
      cases hf : findListener w.listeners event.target with
      | none =>
        simp only [pointerdown, hf]
        exact hn
      | some il =>
        obtain ⟨i, listener⟩ := il
        have hget := (findListener_some hf).1
        rw [pointerdown_state hf]
        apply forall_mem_set hn
        simp only
        apply List.Nodup.append (hn listener (mem_of_getElem?_eq_some hget))
          (List.nodup_singleton _)
        intro x hx hx'
        rw [List.mem_singleton] at hx'
        subst hx'
        obtain ⟨q, hq, _⟩ := h.owned i listener hget _ hx
        have := (List.getElem?_eq_some.mp hq).1
        omega
    case pointermove =>
      simp only [eventRegonizer, ht]
      cases hl : lookupPointer w event.pointerId with
      | none =>
        simp only [pointermove, hl]
        exact hn
      | some rpl =>
        obtain ⟨r, pointer, listener⟩ := rpl
        have hget := (lookupPointer_some hl).2.2
        obtain ⟨p', c', _, _, _, _, _, heq⟩ := pointermove_state hl
        rw [heq]
        apply forall_mem_set hn
        exact hn listener (mem_of_getElem?_eq_some hget)
    case contextmenu =>
      simp only [eventRegonizer, ht]
      exact hn
    all_goals
      simp only [eventRegonizer, ht]
      cases hl : lookupPointer w event.pointerId with
      | none =>
        simp only [pointerrelease, hl]
        exact hn
      | some rpl =>
        obtain ⟨r, pointer, listener⟩ := rpl
        have hget := (lookupPointer_some hl).2.2
        obtain ⟨heap', f, _, _, _, _, heq⟩ := pointerrelease_state hl
        rw [heq]
        apply forall_mem_set hn
        exact nodup_splice _ _ (hn listener (mem_of_getElem?_eq_some hget))

theorem nodup_run (acts : List Action) (w : World) (h : Consistent w)
    (hn : ∀ l ∈ w.listeners, l.state.pointers.Nodup) :
    ∀ l ∈ (run w acts).1.listeners, l.state.pointers.Nodup := by
  induction acts generalizing w with
  | nil => exact hn
  | cons a rest ih => exact ih (step w a).1 (consistent_step w a h) (nodup_step w a h hn)

/-- C19: in every module state reached from the initial one by registrations,
pointer events (repeated presses with an active pointer id included) and blur
events, a record stored in the pointer index is allocated and is an element of
its own listener's pointers; so `indexOf` finds it (the result is not `-1` and
the element at that position is the record), and a release of its pointer id
removes exactly that record: the listener's pointers become the old sequence
with the record erased, the record is no longer among them, and the length
drops by exactly one. -/
theorem release_removes_the_released_record (acts : List Action) (pointerId : Int) (r : Nat)
    (hlook : (run init acts).1.pointers.lookup pointerId = some r) :
    ∃ (p : Pointer) (l : Listener),
      (run init acts).1.heap[r]? = some p ∧
      (run init acts).1.listeners[p.listener]? = some l ∧
      r ∈ l.state.pointers ∧
      indexOf l.state.pointers r ≠ -1 ∧
      l.state.pointers[(indexOf l.state.pointers r).toNat]? = some r ∧
      ∀ release : Event, isRelease release → release.pointerId = pointerId →
        ∃ l' : Listener,
          (eventRegonizer (run init acts).1 release).1.listeners[p.listener]? = some l' ∧
          l'.state.pointers = l.state.pointers.erase r ∧
          r ∉ l'.state.pointers ∧
          l'.state.pointers.length + 1 = l.state.pointers.length := by
  have h := consistent_run acts init consistent_init
  have hn := nodup_run acts init consistent_init (by intro l hl; cases hl)
  obtain ⟨p, l, hp, hl, hmem⟩ := h.indexed pointerId r hlook
  have hidx : indexOf l.state.pointers r = (List.indexOf r l.state.pointers : Nat) := by
    simp only [indexOf, hmem, if_true]
  refine ⟨p, l, hp, hl, hmem, ?_, ?_, ?_⟩
  · rw [hidx]
    omega
  · rw [hidx, Int.toNat_ofNat]
    exact List.getElem?_indexOf hmem
  · intro release hrel hid
    subst hid
    have hlp := lookupPointer_eq_some hlook hp hl
    have he : eventRegonizer (run init acts).1 release =
        pointerrelease (run init acts).1 release := by
      rcases hrel with h | h | h <;> simp only [eventRegonizer, h]
    obtain ⟨heap', f, _, _, _, _, heq⟩ := pointerrelease_state hlp
    have hlt : p.listener < (run init acts).1.listeners.length :=
      (List.getElem?_eq_some.mp hl).1
    have hnd := hn l (mem_of_getElem?_eq_some hl)
    rw [he, heq, splice_indexOf_of_mem hmem]
    refine ⟨_, List.getElem?_set_self hlt, rfl, List.Nodup.not_mem_erase hnd, ?_⟩
    simp only
    rw [List.length_erase_of_mem hmem]
    have := List.length_pos_of_mem hmem
    omega

theorem release_removes_the_released_record_witness :
    ∃ (p : Pointer) (l : Listener),
      (run init [Action.register 7, Action.pointer (sampleEvent EventType.pointerdown 1 0 0),
        Action.pointer (sampleEvent EventType.pointerdown 1 0 0)]).1.heap[1]? = some p ∧
      (run init [Action.register 7, Action.pointer (sampleEvent EventType.pointerdown 1 0 0),
        Action.pointer (sampleEvent EventType.pointerdown 1 0 0)]).1.listeners[p.listener]? =
          some l ∧
      1 ∈ l.state.pointers ∧
      indexOf l.state.pointers 1 ≠ -1 ∧
      l.state.pointers[(indexOf l.state.pointers 1).toNat]? = some 1 ∧
      ∀ release : Event, isRelease release → release.pointerId = 1 →
        ∃ l' : Listener,
          (eventRegonizer
            (run init [Action.register 7,
              Action.pointer (sampleEvent EventType.pointerdown 1 0 0),
              Action.pointer (sampleEvent EventType.pointerdown 1 0 0)]).1
            release).1.listeners[p.listener]? = some l' ∧
          l'.state.pointers = l.state.pointers.erase 1 ∧
          1 ∉ l'.state.pointers ∧
          l'.state.pointers.length + 1 = l.state.pointers.length :=
  release_removes_the_released_record
    [Action.register 7, Action.pointer (sampleEvent EventType.pointerdown 1 0 0),
      Action.pointer (sampleEvent EventType.pointerdown 1 0 0)] 1 1 (by decide)

/-- C20: on a listener that is `'idle'` with no pointers, a press followed
directly by a release of the same pointer dispatches exactly one gesture event,
a `tap` carrying the release event, wherever the release is; and on the sample
listener a press at `(0,0)` released at `(100,100)`, farther than
`DRAG_THRESHOLD` from the press, dispatches such a `tap`. -/
theorem tap_ignores_release_position (w : World) (i : Nat) (listener : Listener)
    (press release : Event)
    (hreg : findListener w.listeners press.target = some (i, listener))
    (hidle : listener.state = { currentEvent := CurrentEvent.idle, pointers := [] })
    (hpress : press.type = EventType.pointerdown)
    (hrel : isRelease release) (hid : release.pointerId = press.pointerId) :
    (run w [Action.pointer press, Action.pointer release]).2 =
      [{ dispatcher := listener.eventDispatcher, type := GestureType.tap,
         payload := Payload.single release }] ∧
    (sampleWorld.CONFIG.DRAG_THRESHOLD ^ 2 <
        distSq (sampleEvent EventType.pointerdown 1 0 0)
          (sampleEvent EventType.pointerup 1 100 100) ∧
      (run sampleWorld [Action.pointer (sampleEvent EventType.pointerdown 1 0 0),
        Action.pointer (sampleEvent EventType.pointerup 1 100 100)]).2 =
        [{ dispatcher := 0, type := GestureType.tap,
           payload := Payload.single (sampleEvent EventType.pointerup 1 100 100) }]) := by
  refine ⟨?_, by decide⟩
  obtain ⟨hget, _⟩ := findListener_some hreg
  have hi : i < w.listeners.length := (List.getElem?_eq_some.mp hget).1
  have h0 : eventRegonizer w press =
      (onePointer w i listener CurrentEvent.idle press.pointerId
        { event := press, start := press, preEvents := [press], listener := i }, []) := by
    have := pointerdown_on_empty w press i listener hreg (by rw [hidle])
    simp only [eventRegonizer, hpress, this, hidle]
  have h2 := release_onePointer w i listener CurrentEvent.idle
    { event := press, start := press, preEvents := [press], listener := i } release hi rfl
    (by decide) hrel
  rw [hid] at h2
  simp only [run, step, h0, h2, List.nil_append, if_true, List.append_nil]

theorem tap_ignores_release_position_witness :
    (run sampleWorld [Action.pointer (sampleEvent EventType.pointerdown 1 0 0),
      Action.pointer (sampleEvent EventType.pointerup 1 100 100)]).2 =
      [{ dispatcher := 0, type := GestureType.tap,
         payload := Payload.single (sampleEvent EventType.pointerup 1 100 100) }] :=
  (tap_ignores_release_position sampleWorld 0 sampleListener
    (sampleEvent EventType.pointerdown 1 0 0) (sampleEvent EventType.pointerup 1 100 100)
    rfl rfl rfl (Or.inl rfl) rfl).1

end TouchEvents
